import Mathlib

/-!
# LiCharger: CC-CV lithium-ion charge controller

A shallow embedding of `LiCharger.cpp` (class `LiChargerClass`) and the
properties of its state machine, regulator, safety limiter and detectors.

Machine integers are natural numbers; every `uint32_t` operation of the source
is reduced modulo `2^32`, every `uint8_t` operation modulo `2^8`.  The actuator
callback `callbackFct` is modelled by the list of values it is called with, in
call order.  The clock `millis ()` is the argument `ts` of `loopHandler`.
-/

namespace LiCharger

/-! ## Configuration parameters (LiCharger.cpp, lines 34-46) -/

def V_MAX : Nat := 4150000
def V_START_MAX : Nat := 4100000
def V_START_MIN : Nat := 2200000
def V_SURGE : Nat := 4250000
def V_SAFE : Nat := 2800000
def V_WINDOW : Nat := 2000
def I_WINDOW : Nat := 15000
def I_FULL : Nat := 200
def I_SAFE_DIVIDER : Nat := 10
def START_DELAY : Nat := 2000
def FULL_DELAY : Nat := 20000
def UPDATE_DELAY : Nat := 100
def ERROR_DELAY : Nat := 150

/-! ## Machine arithmetic -/

/-- Product of two `uint32_t` operands. -/
def mul32 (a b : Nat) : Nat := (a * b) % 4294967296

/-- Sum of two `uint32_t` operands. -/
def add32 (a b : Nat) : Nat := (a + b) % 4294967296

/-- Difference of two `uint32_t` operands (wraps around below zero). -/
def sub32 (a b : Nat) : Nat := (a + (4294967296 - b % 4294967296)) % 4294967296

/-- Post-increment of a `uint8_t`. -/
def inc8 (a : Nat) : Nat := (a + 1) % 256

/-- Post-decrement of a `uint8_t` (wraps around below zero). -/
def dec8 (a : Nat) : Nat := (a + 255) % 256

/-! ## Data model -/

/-- Modelled from the spec: the enumeration of the state machine's states is
declared in `LiCharger.h`; these are the four enumerators the `switch` of
`loopHandler` names (StandbyEntry, Standby, ChargeEntry, Charging). -/
inductive LiChargerState where
  | LI_CHARGER_STATE_STANDBY_E
  | LI_CHARGER_STATE_STANDBY
  | LI_CHARGER_STATE_CHARGE_E
  | LI_CHARGER_STATE_CHARGE
deriving DecidableEq, Repr

open LiChargerState

/-- Modelled from the spec: the member variables of `LiChargerClass` are
declared in `LiCharger.h`; these are the members `LiCharger.cpp` reads and
writes.  `callbackFct` is not stored: calls to it are recorded in the output
list of each operation. -/
structure LiChargerClass where
  nCells : Nat
  iChrg : Nat
  state : LiChargerState
  active : Bool
  pwm : Nat
  iMax : Nat
  safeCharge : Bool
  startTs : Nat
  updateTs : Nat
  fullTs : Nat
  errorTs : Nat
deriving DecidableEq, Repr

/-! ## Operations -/

/-- Method `LiChargerClass::initialize` (lines 51-57); spelt `initialise` here because
the source's spelling is a reserved word. -/
def initialise (nCells iChrg : Nat) (s : LiChargerClass) : LiChargerClass × List Nat :=
  ({ s with nCells := nCells, iChrg := iChrg, state := LI_CHARGER_STATE_STANDBY_E }, [])

/-- Method `LiChargerClass::start` (lines 142-144). -/
def start (s : LiChargerClass) : LiChargerClass × List Nat :=
  ({ s with active := true }, [])

/-- Method `LiChargerClass::stop` (lines 147-152). -/
def stop (s : LiChargerClass) : LiChargerClass × List Nat :=
  ({ s with active := false, pwm := 0, state := LI_CHARGER_STATE_STANDBY_E }, [0])

/-- Body of `case LI_CHARGER_STATE_STANDBY` (lines 78-81). -/
def standby (ts v : Nat) (s : LiChargerClass) : LiChargerClass :=
  let s1 :=
    if v < mul32 V_START_MIN s.nCells ∨ v > mul32 V_START_MAX s.nCells then
      { s with startTs := ts }
    else s
  if sub32 ts s1.startTs > START_DELAY then
    { s1 with state := LI_CHARGER_STATE_CHARGE_E }
  else s1

/-- Condition of the first `if` of the regulator (lines 99-100). -/
def overLimit (v i : Nat) (s : LiChargerClass) : Prop :=
  v > add32 (mul32 V_MAX s.nCells) (mul32 V_WINDOW s.nCells) ∨ i > add32 s.iMax I_WINDOW

/-- Condition of the `else if` of the regulator (lines 103-104). -/
def underLimit (v i : Nat) (s : LiChargerClass) : Prop :=
  v < sub32 (mul32 V_MAX s.nCells) (mul32 V_WINDOW s.nCells) ∧ i < sub32 s.iMax I_WINDOW

instance (v i : Nat) (s : LiChargerClass) : Decidable (overLimit v i s) := by
  unfold overLimit; infer_instance

instance (v i : Nat) (s : LiChargerClass) : Decidable (underLimit v i s) := by
  unfold underLimit; infer_instance

/-- The CC-CV adjustment of `pwm` (lines 99-106). -/
def regulate (v i : Nat) (s : LiChargerClass) : LiChargerClass :=
  if overLimit v i s then
    if s.pwm > 0 then { s with pwm := dec8 s.pwm } else s
  else if underLimit v i s then
    if s.pwm < 255 then { s with pwm := inc8 s.pwm } else s
  else s

/-- The paced regulation block (lines 95-110): the new state and the values
handed to the callback. -/
def regulation (ts v i : Nat) (s : LiChargerClass) : LiChargerClass × List Nat :=
  if sub32 ts s.updateTs > UPDATE_DELAY then
    let r := regulate v i { s with updateTs := ts }
    (r, [r.pwm])
  else (s, [])

/-- Termination of safety charging (lines 113-116). -/
def safety (v : Nat) (s : LiChargerClass) : LiChargerClass :=
  if v > mul32 V_SAFE s.nCells ∧ s.safeCharge = true then
    { s with safeCharge := false, iMax := mul32 s.iChrg 1000 }
  else s

/-- End of charge detection (lines 120-123). -/
def fullDetect (ts i : Nat) (s : LiChargerClass) : LiChargerClass :=
  let s1 :=
    if i > mul32 I_FULL 1000 ∨ s.safeCharge = true then { s with fullTs := ts } else s
  if sub32 ts s1.fullTs > FULL_DELAY then
    { s1 with state := LI_CHARGER_STATE_STANDBY_E }
  else s1

/-- Error detection (lines 127-130). -/
def errorDetect (ts v : Nat) (s : LiChargerClass) : LiChargerClass :=
  let s1 := if v < mul32 V_SURGE s.nCells then { s with errorTs := ts } else s
  if sub32 ts s1.errorTs > ERROR_DELAY then
    { s1 with state := LI_CHARGER_STATE_STANDBY_E }
  else s1

/-- Body of `case LI_CHARGER_STATE_CHARGE` (lines 93-130). -/
def charge (ts v i : Nat) (s : LiChargerClass) : LiChargerClass × List Nat :=
  let r := regulation ts v i s
  (errorDetect ts v (fullDetect ts i (safety v r.1)), r.2)

/-- Assignments of `case LI_CHARGER_STATE_STANDBY_E` (lines 71-74), before the
fall-through; the callback call of line 73 is recorded by `loopHandler`. -/
def standbyEntry (ts : Nat) (s : LiChargerClass) : LiChargerClass :=
  { s with startTs := ts, pwm := 0, state := LI_CHARGER_STATE_STANDBY }

/-- Assignments of `case LI_CHARGER_STATE_CHARGE_E` (lines 85-90), before the
fall-through. -/
def chargeEntry (ts : Nat) (s : LiChargerClass) : LiChargerClass :=
  { s with updateTs := ts, fullTs := ts, errorTs := ts,
           iMax := mul32 s.iChrg 1000 / I_SAFE_DIVIDER,
           safeCharge := true, state := LI_CHARGER_STATE_CHARGE }

/-- Method `LiChargerClass::loopHandler` (lines 61-139); `ts` is the value read from
`millis ()`. -/
def loopHandler (ts v i : Nat) (s : LiChargerClass) : LiChargerClass × List Nat :=
  if s.active = false then (s, [])
  else
    match s.state with
    | LI_CHARGER_STATE_STANDBY_E => (standby ts v (standbyEntry ts s), [0])
    | LI_CHARGER_STATE_STANDBY => (standby ts v s, [])
    | LI_CHARGER_STATE_CHARGE_E => charge ts v i (chargeEntry ts s)
    | LI_CHARGER_STATE_CHARGE => charge ts v i s

/-- The ceiling invariant of the Charging phase: `iMax` is a tenth of the
nominal current (in µA) while `safeCharge` is set, the nominal current
otherwise. -/
def ceilingOk (s : LiChargerClass) : Prop :=
  s.iMax = if s.safeCharge = true then s.iChrg * 1000 / I_SAFE_DIVIDER else s.iChrg * 1000

instance (s : LiChargerClass) : Decidable (ceilingOk s) := by
  unfold ceilingOk; infer_instance

/-! ## Call sequences -/

/-- One call of a public entry point, with its arguments. -/
inductive Call where
  | initialise (nCells iChrg : Nat)
  | start
  | stop
  | loopHandler (ts v i : Nat)
deriving DecidableEq, Repr

/-- Effect of one call. -/
def Call.exec : Call → LiChargerClass → LiChargerClass × List Nat
  | .initialise n c, s => LiCharger.initialise n c s
  | .start, s => LiCharger.start s
  | .stop, s => LiCharger.stop s
  | .loopHandler ts v i, s => LiCharger.loopHandler ts v i s

/-- Effect of a sequence of calls: the final state and every value handed to
the callback, in order. -/
def runCalls : List Call → LiChargerClass → LiChargerClass × List Nat
  | [], s => (s, [])
  | c :: cs, s =>
    let r := c.exec s
    let q := runCalls cs r.1
    (q.1, r.2 ++ q.2)

/-- The arguments of `initialize` fit their parameter types (`uint8_t`,
`uint16_t`). -/
def Call.typed : Call → Prop
  | .initialise n c => n < 256 ∧ c < 65536
  | _ => True

instance (c : Call) : Decidable c.typed := by
  cases c <;> simp only [Call.typed] <;> infer_instance

/-- An object whose members are all zero, in the entry state and inactive: the
starting point of the concrete runs below. -/
def powerOn : LiChargerClass :=
  { nCells := 0, iChrg := 0, state := LI_CHARGER_STATE_STANDBY_E, active := false,
    pwm := 0, iMax := 0, safeCharge := false,
    startTs := 0, updateTs := 0, fullTs := 0, errorTs := 0 }

/-- A Charging state of a one-cell, 1000 mA charger in safety mode, duty cycle
5, all charge timers at 2002 ms. -/
def chargingExample : LiChargerClass :=
  { nCells := 1, iChrg := 1000, state := LI_CHARGER_STATE_CHARGE, active := true,
    pwm := 5, iMax := 100000, safeCharge := true,
    startTs := 0, updateTs := 2002, fullTs := 2002, errorTs := 2002 }

/-- A Standby state of a one-cell, 1000 mA charger whose debounce timer was
last reset at 0 ms. -/
def standbyExample : LiChargerClass :=
  { nCells := 1, iChrg := 1000, state := LI_CHARGER_STATE_STANDBY, active := true,
    pwm := 0, iMax := 0, safeCharge := false,
    startTs := 0, updateTs := 0, fullTs := 0, errorTs := 0 }

/-- A Charging state outside safety mode whose end-of-charge timer was last
reset at 10000 ms while the other charge timers are at 30000 ms. -/
def taperedExample : LiChargerClass :=
  { nCells := 1, iChrg := 1000, state := LI_CHARGER_STATE_CHARGE, active := true,
    pwm := 200, iMax := 1000000, safeCharge := false,
    startTs := 0, updateTs := 30000, fullTs := 10000, errorTs := 30000 }

/-- The calls that bring a one-cell charger of 100 mA nominal current from
`powerOn` into the Charging phase: 3.0 V is inside the start window, the
debounce expires at 2001 ms, ChargeEntry runs at 2002 ms with 2.5 V (below
`V_SAFE`, so safety mode stays on). -/
def lowCurrentRun : List Call :=
  [Call.initialise 1 100, Call.start, Call.loopHandler 0 3000000 0,
   Call.loopHandler 2001 3000000 0, Call.loopHandler 2002 2500000 20000]

/-- The calls that bring a one-cell charger of 1000 mA nominal current from
`powerOn` into Charging (outside safety mode, as 3.0 V is above `V_SAFE`),
raise `pwm` to 3 by three regulation ticks at 3.0 V, and then see 4.3 V (above
`V_SURGE`) at 2306 ms, 1 ms after the last reset of `errorTs`. -/
def surgeRun : List Call :=
  [Call.initialise 1 1000, Call.start, Call.loopHandler 0 3000000 0,
   Call.loopHandler 2001 3000000 0, Call.loopHandler 2002 3000000 0,
   Call.loopHandler 2103 3000000 0, Call.loopHandler 2204 3000000 0,
   Call.loopHandler 2305 3000000 0, Call.loopHandler 2306 4300000 0]

/-- One later poll of `loopHandler`: `dt` milliseconds after the previous
poll, with measured voltage `v` and current `i`. -/
structure Tick where
  dt : Nat
  v : Nat
  i : Nat
deriving DecidableEq, Repr

/-- The `loopHandler` calls of a sequence of polls that follows a poll at
clock value `t`; the 32-bit clock wraps around. -/
def ticksFrom (t : Nat) : List Tick → List Call
  | [] => []
  | k :: ks =>
    Call.loopHandler ((t + k.dt) % 4294967296) k.v k.i ::
      ticksFrom ((t + k.dt) % 4294967296) ks

/-- Time covered by a sequence of polls, in milliseconds. -/
def span : List Tick → Nat
  | [] => 0
  | k :: ks => k.dt + span ks

/-- Clock value at the last poll of a sequence that follows a poll at `t`. -/
def clockAfter (t : Nat) : List Tick → Nat
  | [] => t
  | k :: ks => clockAfter ((t + k.dt) % 4294967296) ks

/-- The same object seen on a clock that runs `k` ms ahead: the four time
marks are advanced by `k` modulo 2^32. -/
def shiftClock (k : Nat) (s : LiChargerClass) : LiChargerClass :=
  { s with startTs := (s.startTs + k) % 4294967296,
           updateTs := (s.updateTs + k) % 4294967296,
           fullTs := (s.fullTs + k) % 4294967296,
           errorTs := (s.errorTs + k) % 4294967296 }

theorem standby_pwm (ts v : Nat) (s : LiChargerClass) : (standby ts v s).pwm = s.pwm := by
  simp only [standby]; split_ifs <;> rfl

theorem safety_pwm (v : Nat) (s : LiChargerClass) : (safety v s).pwm = s.pwm := by
  simp only [safety]; split_ifs <;> rfl

theorem fullDetect_pwm (ts i : Nat) (s : LiChargerClass) : (fullDetect ts i s).pwm = s.pwm := by
  simp only [fullDetect]; split_ifs <;> rfl

theorem errorDetect_pwm (ts v : Nat) (s : LiChargerClass) :
    (errorDetect ts v s).pwm = s.pwm := by
  simp only [errorDetect]; split_ifs <;> rfl

@[simp] theorem standby_nCells (ts v : Nat) (s : LiChargerClass) :
    (standby ts v s).nCells = s.nCells := by
  simp only [standby]; split_ifs <;> rfl

@[simp] theorem standby_iChrg (ts v : Nat) (s : LiChargerClass) :
    (standby ts v s).iChrg = s.iChrg := by
  simp only [standby]; split_ifs <;> rfl

@[simp] theorem standby_active (ts v : Nat) (s : LiChargerClass) :
    (standby ts v s).active = s.active := by
  simp only [standby]; split_ifs <;> rfl

@[simp] theorem standby_iMax (ts v : Nat) (s : LiChargerClass) :
    (standby ts v s).iMax = s.iMax := by
  simp only [standby]; split_ifs <;> rfl

@[simp] theorem standby_safeCharge (ts v : Nat) (s : LiChargerClass) :
    (standby ts v s).safeCharge = s.safeCharge := by
  simp only [standby]; split_ifs <;> rfl

@[simp] theorem standby_updateTs (ts v : Nat) (s : LiChargerClass) :
    (standby ts v s).updateTs = s.updateTs := by
  simp only [standby]; split_ifs <;> rfl

@[simp] theorem standby_fullTs (ts v : Nat) (s : LiChargerClass) :
    (standby ts v s).fullTs = s.fullTs := by
  simp only [standby]; split_ifs <;> rfl

@[simp] theorem standby_errorTs (ts v : Nat) (s : LiChargerClass) :
    (standby ts v s).errorTs = s.errorTs := by
  simp only [standby]; split_ifs <;> rfl

@[simp] theorem regulate_nCells (v i : Nat) (s : LiChargerClass) :
    (regulate v i s).nCells = s.nCells := by
  unfold regulate; split_ifs <;> rfl

@[simp] theorem regulate_iChrg (v i : Nat) (s : LiChargerClass) :
    (regulate v i s).iChrg = s.iChrg := by
  unfold regulate; split_ifs <;> rfl

@[simp] theorem regulate_state (v i : Nat) (s : LiChargerClass) :
    (regulate v i s).state = s.state := by
  unfold regulate; split_ifs <;> rfl

@[simp] theorem regulate_active (v i : Nat) (s : LiChargerClass) :
    (regulate v i s).active = s.active := by
  unfold regulate; split_ifs <;> rfl

@[simp] theorem regulate_iMax (v i : Nat) (s : LiChargerClass) :
    (regulate v i s).iMax = s.iMax := by
  unfold regulate; split_ifs <;> rfl

@[simp] theorem regulate_safeCharge (v i : Nat) (s : LiChargerClass) :
    (regulate v i s).safeCharge = s.safeCharge := by
  unfold regulate; split_ifs <;> rfl

@[simp] theorem regulate_startTs (v i : Nat) (s : LiChargerClass) :
    (regulate v i s).startTs = s.startTs := by
  unfold regulate; split_ifs <;> rfl

@[simp] theorem regulate_updateTs (v i : Nat) (s : LiChargerClass) :
    (regulate v i s).updateTs = s.updateTs := by
  unfold regulate; split_ifs <;> rfl

@[simp] theorem regulate_fullTs (v i : Nat) (s : LiChargerClass) :
    (regulate v i s).fullTs = s.fullTs := by
  unfold regulate; split_ifs <;> rfl

@[simp] theorem regulate_errorTs (v i : Nat) (s : LiChargerClass) :
    (regulate v i s).errorTs = s.errorTs := by
  unfold regulate; split_ifs <;> rfl

@[simp] theorem safety_nCells (v : Nat) (s : LiChargerClass) :
    (safety v s).nCells = s.nCells := by
  simp only [safety]; split_ifs <;> rfl

@[simp] theorem safety_iChrg (v : Nat) (s : LiChargerClass) :
    (safety v s).iChrg = s.iChrg := by
  simp only [safety]; split_ifs <;> rfl

@[simp] theorem safety_state (v : Nat) (s : LiChargerClass) :
    (safety v s).state = s.state := by
  simp only [safety]; split_ifs <;> rfl

@[simp] theorem safety_active (v : Nat) (s : LiChargerClass) :
    (safety v s).active = s.active := by
  simp only [safety]; split_ifs <;> rfl

@[simp] theorem safety_startTs (v : Nat) (s : LiChargerClass) :
    (safety v s).startTs = s.startTs := by
  simp only [safety]; split_ifs <;> rfl

@[simp] theorem safety_updateTs (v : Nat) (s : LiChargerClass) :
    (safety v s).updateTs = s.updateTs := by
  simp only [safety]; split_ifs <;> rfl

@[simp] theorem safety_fullTs (v : Nat) (s : LiChargerClass) :
    (safety v s).fullTs = s.fullTs := by
  simp only [safety]; split_ifs <;> rfl

@[simp] theorem safety_errorTs (v : Nat) (s : LiChargerClass) :
    (safety v s).errorTs = s.errorTs := by
  simp only [safety]; split_ifs <;> rfl

@[simp] theorem fullDetect_nCells (ts i : Nat) (s : LiChargerClass) :
    (fullDetect ts i s).nCells = s.nCells := by
  simp only [fullDetect]; split_ifs <;> rfl

@[simp] theorem fullDetect_iChrg (ts i : Nat) (s : LiChargerClass) :
    (fullDetect ts i s).iChrg = s.iChrg := by
  simp only [fullDetect]; split_ifs <;> rfl

@[simp] theorem fullDetect_active (ts i : Nat) (s : LiChargerClass) :
    (fullDetect ts i s).active = s.active := by
  simp only [fullDetect]; split_ifs <;> rfl

@[simp] theorem fullDetect_iMax (ts i : Nat) (s : LiChargerClass) :
    (fullDetect ts i s).iMax = s.iMax := by
  simp only [fullDetect]; split_ifs <;> rfl

@[simp] theorem fullDetect_safeCharge (ts i : Nat) (s : LiChargerClass) :
    (fullDetect ts i s).safeCharge = s.safeCharge := by
  simp only [fullDetect]; split_ifs <;> rfl

@[simp] theorem fullDetect_startTs (ts i : Nat) (s : LiChargerClass) :
    (fullDetect ts i s).startTs = s.startTs := by
  simp only [fullDetect]; split_ifs <;> rfl

@[simp] theorem fullDetect_updateTs (ts i : Nat) (s : LiChargerClass) :
    (fullDetect ts i s).updateTs = s.updateTs := by
  simp only [fullDetect]; split_ifs <;> rfl

@[simp] theorem fullDetect_errorTs (ts i : Nat) (s : LiChargerClass) :
    (fullDetect ts i s).errorTs = s.errorTs := by
  simp only [fullDetect]; split_ifs <;> rfl

@[simp] theorem errorDetect_nCells (ts v : Nat) (s : LiChargerClass) :
    (errorDetect ts v s).nCells = s.nCells := by
  simp only [errorDetect]; split_ifs <;> rfl

@[simp] theorem errorDetect_iChrg (ts v : Nat) (s : LiChargerClass) :
    (errorDetect ts v s).iChrg = s.iChrg := by
  simp only [errorDetect]; split_ifs <;> rfl

@[simp] theorem errorDetect_active (ts v : Nat) (s : LiChargerClass) :
    (errorDetect ts v s).active = s.active := by
  simp only [errorDetect]; split_ifs <;> rfl

@[simp] theorem errorDetect_iMax (ts v : Nat) (s : LiChargerClass) :
    (errorDetect ts v s).iMax = s.iMax := by
  simp only [errorDetect]; split_ifs <;> rfl

@[simp] theorem errorDetect_safeCharge (ts v : Nat) (s : LiChargerClass) :
    (errorDetect ts v s).safeCharge = s.safeCharge := by
  simp only [errorDetect]; split_ifs <;> rfl

@[simp] theorem errorDetect_startTs (ts v : Nat) (s : LiChargerClass) :
    (errorDetect ts v s).startTs = s.startTs := by
  simp only [errorDetect]; split_ifs <;> rfl

@[simp] theorem errorDetect_updateTs (ts v : Nat) (s : LiChargerClass) :
    (errorDetect ts v s).updateTs = s.updateTs := by
  simp only [errorDetect]; split_ifs <;> rfl

@[simp] theorem errorDetect_fullTs (ts v : Nat) (s : LiChargerClass) :
    (errorDetect ts v s).fullTs = s.fullTs := by
  simp only [errorDetect]; split_ifs <;> rfl

@[simp] theorem regulation_nCells (ts v i : Nat) (s : LiChargerClass) :
    (regulation ts v i s).1.nCells = s.nCells := by
  unfold regulation; split_ifs
  · exact regulate_nCells v i _
  · rfl

@[simp] theorem regulation_iChrg (ts v i : Nat) (s : LiChargerClass) :
    (regulation ts v i s).1.iChrg = s.iChrg := by
  unfold regulation; split_ifs
  · exact regulate_iChrg v i _
  · rfl

@[simp] theorem regulation_state (ts v i : Nat) (s : LiChargerClass) :
    (regulation ts v i s).1.state = s.state := by
  unfold regulation; split_ifs
  · exact regulate_state v i _
  · rfl

@[simp] theorem regulation_active (ts v i : Nat) (s : LiChargerClass) :
    (regulation ts v i s).1.active = s.active := by
  unfold regulation; split_ifs
  · exact regulate_active v i _
  · rfl

@[simp] theorem regulation_iMax (ts v i : Nat) (s : LiChargerClass) :
    (regulation ts v i s).1.iMax = s.iMax := by
  unfold regulation; split_ifs
  · exact regulate_iMax v i _
  · rfl

@[simp] theorem regulation_safeCharge (ts v i : Nat) (s : LiChargerClass) :
    (regulation ts v i s).1.safeCharge = s.safeCharge := by
  unfold regulation; split_ifs
  · exact regulate_safeCharge v i _
  · rfl

@[simp] theorem regulation_startTs (ts v i : Nat) (s : LiChargerClass) :
    (regulation ts v i s).1.startTs = s.startTs := by
  unfold regulation; split_ifs
  · exact regulate_startTs v i _
  · rfl

@[simp] theorem regulation_fullTs (ts v i : Nat) (s : LiChargerClass) :
    (regulation ts v i s).1.fullTs = s.fullTs := by
  unfold regulation; split_ifs
  · exact regulate_fullTs v i _
  · rfl

@[simp] theorem regulation_errorTs (ts v i : Nat) (s : LiChargerClass) :
    (regulation ts v i s).1.errorTs = s.errorTs := by
  unfold regulation; split_ifs
  · exact regulate_errorTs v i _
  · rfl

@[simp] theorem charge_iChrg (ts v i : Nat) (s : LiChargerClass) :
    (charge ts v i s).1.iChrg = s.iChrg := by
  simp [charge]

@[simp] theorem charge_active (ts v i : Nat) (s : LiChargerClass) :
    (charge ts v i s).1.active = s.active := by
  simp [charge]

@[simp] theorem charge_startTs (ts v i : Nat) (s : LiChargerClass) :
    (charge ts v i s).1.startTs = s.startTs := by
  simp [charge]

theorem safety_safeCharge (v : Nat) (s : LiChargerClass) :
    (safety v s).safeCharge =
      if v > mul32 V_SAFE s.nCells ∧ s.safeCharge = true then false else s.safeCharge := by
  simp only [safety]; split_ifs <;> rfl

theorem safety_iMax (v : Nat) (s : LiChargerClass) :
    (safety v s).iMax =
      if v > mul32 V_SAFE s.nCells ∧ s.safeCharge = true then mul32 s.iChrg 1000
      else s.iMax := by
  simp only [safety]; split_ifs <;> rfl

theorem fullDetect_fullTs (ts i : Nat) (s : LiChargerClass) :
    (fullDetect ts i s).fullTs =
      if i > mul32 I_FULL 1000 ∨ s.safeCharge = true then ts else s.fullTs := by
  simp only [fullDetect]; split_ifs <;> rfl

theorem fullDetect_state (ts i : Nat) (s : LiChargerClass) :
    (fullDetect ts i s).state =
      if sub32 ts (fullDetect ts i s).fullTs > FULL_DELAY then LI_CHARGER_STATE_STANDBY_E
      else s.state := by
  simp only [fullDetect]; split_ifs <;> rfl

theorem errorDetect_errorTs (ts v : Nat) (s : LiChargerClass) :
    (errorDetect ts v s).errorTs =
      if v < mul32 V_SURGE s.nCells then ts else s.errorTs := by
  simp only [errorDetect]; split_ifs <;> rfl

theorem errorDetect_state (ts v : Nat) (s : LiChargerClass) :
    (errorDetect ts v s).state =
      if sub32 ts (errorDetect ts v s).errorTs > ERROR_DELAY then LI_CHARGER_STATE_STANDBY_E
      else s.state := by
  simp only [errorDetect]; split_ifs <;> rfl

/-- Safety flag after the Charging body: cleared by a voltage above `V_SAFE`,
otherwise kept. -/
theorem charge_safeCharge (ts v i : Nat) (s : LiChargerClass) :
    (charge ts v i s).1.safeCharge =
      if v > mul32 V_SAFE s.nCells ∧ s.safeCharge = true then false else s.safeCharge := by
  simp [charge, safety_safeCharge]

/-- Current ceiling after the Charging body. -/
theorem charge_iMax (ts v i : Nat) (s : LiChargerClass) :
    (charge ts v i s).1.iMax =
      if v > mul32 V_SAFE s.nCells ∧ s.safeCharge = true then mul32 s.iChrg 1000
      else s.iMax := by
  simp [charge, safety_iMax]

/-- End-of-charge timer after the Charging body. -/
theorem charge_fullTs (ts v i : Nat) (s : LiChargerClass) :
    (charge ts v i s).1.fullTs =
      if i > mul32 I_FULL 1000 ∨ (charge ts v i s).1.safeCharge = true then ts
      else s.fullTs := by
  simp [charge, fullDetect_fullTs]

/-- Error timer after the Charging body. -/
theorem charge_errorTs (ts v i : Nat) (s : LiChargerClass) :
    (charge ts v i s).1.errorTs =
      if v < mul32 V_SURGE s.nCells then ts else s.errorTs := by
  simp [charge, errorDetect_errorTs]

/-- State after the Charging body: StandbyEntry when one of the two detectors
fires, otherwise unchanged. -/
theorem charge_state (ts v i : Nat) (s : LiChargerClass) :
    (charge ts v i s).1.state =
      if sub32 ts (charge ts v i s).1.errorTs > ERROR_DELAY ∨
          sub32 ts (charge ts v i s).1.fullTs > FULL_DELAY then LI_CHARGER_STATE_STANDBY_E
      else s.state := by
  have h1 := errorDetect_state ts v (fullDetect ts i (safety v (regulation ts v i s).1))
  have h2 := fullDetect_state ts i (safety v (regulation ts v i s).1)
  simp only [charge]
  rw [h1, h2]
  simp only [errorDetect_fullTs, safety_state, regulation_state]
  split_ifs <;> first | rfl | omega

/-- The adjustment in exact integers: one step down, one step up, or none. -/
theorem regulate_pwm_cases (v i : Nat) (s : LiChargerClass) (h : s.pwm ≤ 255) :
    (regulate v i s).pwm = s.pwm ∨
    (0 < s.pwm ∧ (regulate v i s).pwm + 1 = s.pwm) ∨
    (s.pwm < 255 ∧ (regulate v i s).pwm = s.pwm + 1) := by
  unfold regulate
  split_ifs <;> show _ ∨ (_ ∧ _) ∨ (_ ∧ _) <;> simp only [dec8, inc8] <;> first | omega | simp

theorem regulate_over (v i : Nat) (s : LiChargerClass) (hp : s.pwm ≤ 255)
    (ho : overLimit v i s) : (regulate v i s).pwm = s.pwm - 1 := by
  unfold regulate
  rw [if_pos ho]
  split_ifs
  · show dec8 s.pwm = s.pwm - 1
    unfold dec8; omega
  · show s.pwm = s.pwm - 1
    omega

theorem regulate_under (v i : Nat) (s : LiChargerClass) (hp : s.pwm ≤ 255)
    (ho : ¬ overLimit v i s) (hu : underLimit v i s) :
    (regulate v i s).pwm = min (s.pwm + 1) 255 := by
  unfold regulate
  rw [if_neg ho, if_pos hu]
  split_ifs
  · show inc8 s.pwm = min (s.pwm + 1) 255
    unfold inc8; omega
  · show s.pwm = min (s.pwm + 1) 255
    omega

theorem regulate_hold (v i : Nat) (s : LiChargerClass)
    (ho : ¬ overLimit v i s) (hu : ¬ underLimit v i s) : regulate v i s = s := by
  unfold regulate
  rw [if_neg ho, if_neg hu]

theorem regulate_pwm_le (v i : Nat) (s : LiChargerClass) (h : s.pwm ≤ 255) :
    (regulate v i s).pwm ≤ 255 := by
  rcases regulate_pwm_cases v i s h with h1 | h1 | h1 <;> omega

theorem regulation_pwm_le (ts v i : Nat) (s : LiChargerClass) (h : s.pwm ≤ 255) :
    (regulation ts v i s).1.pwm ≤ 255 ∧ ∀ x ∈ (regulation ts v i s).2, x ≤ 255 := by
  simp only [regulation]
  split_ifs
  · have hr := regulate_pwm_le v i { s with updateTs := ts } h
    exact ⟨hr, by simpa using hr⟩
  · exact ⟨h, by simp⟩

theorem charge_pwm_le (ts v i : Nat) (s : LiChargerClass) (h : s.pwm ≤ 255) :
    (charge ts v i s).1.pwm ≤ 255 ∧ ∀ x ∈ (charge ts v i s).2, x ≤ 255 := by
  simp only [charge, errorDetect_pwm, fullDetect_pwm, safety_pwm]
  exact regulation_pwm_le ts v i s h

theorem loopHandler_pwm_le (ts v i : Nat) (s : LiChargerClass) (h : s.pwm ≤ 255) :
    (loopHandler ts v i s).1.pwm ≤ 255 ∧ ∀ x ∈ (loopHandler ts v i s).2, x ≤ 255 := by
  unfold loopHandler
  split_ifs
  · exact ⟨h, by simp⟩
  · split
    · simp [standby_pwm, standbyEntry]
    · simpa [standby_pwm] using h
    · exact charge_pwm_le ts v i (chargeEntry ts s) h
    · exact charge_pwm_le ts v i s h

theorem exec_pwm_le (c : Call) (s : LiChargerClass) (h : s.pwm ≤ 255) :
    (c.exec s).1.pwm ≤ 255 ∧ ∀ x ∈ (c.exec s).2, x ≤ 255 := by
  cases c with
  | initialise n c => exact ⟨h, by simp [Call.exec, initialise]⟩
  | start => exact ⟨h, by simp [Call.exec, start]⟩
  | stop => simp [Call.exec, stop]
  | loopHandler ts v i => exact loopHandler_pwm_le ts v i s h

theorem runCalls_pwm_le (cs : List Call) (s : LiChargerClass) (h : s.pwm ≤ 255) :
    (runCalls cs s).1.pwm ≤ 255 ∧ ∀ x ∈ (runCalls cs s).2, x ≤ 255 := by
  induction cs generalizing s with
  | nil => exact ⟨h, by simp [runCalls]⟩
  | cons c cs ih =>
    obtain ⟨h1, h2⟩ := exec_pwm_le c s h
    obtain ⟨h3, h4⟩ := ih (c.exec s).1 h1
    refine ⟨h3, ?_⟩
    intro x hx
    simp only [runCalls, List.mem_append] at hx
    rcases hx with hx | hx
    · exact h2 x hx
    · exact h4 x hx

/-! ## Duty cycle range -/

/-- C1: from an object whose `pwm` byte holds a value in [0,255], after
`initialize` with any cell count and nominal current followed by any finite
sequence of `initialize`/`start`/`stop`/`loopHandler` calls with arbitrary
voltage, current and clock values, `pwm` is in [0,255] and so is every value
handed to the callback; and the regulator does not wrap around: in the
over-limit branch `pwm` becomes `pwm - 1` floored at 0 (so 0 stays 0), in the
increase branch it becomes `pwm + 1` capped at 255 (so 255 stays 255). -/
theorem C1_pwm_stays_in_range (s0 : LiChargerClass) (h0 : s0.pwm ≤ 255)
    (nCells iChrg : Nat) (calls : List Call) :
    ((runCalls (Call.initialise nCells iChrg :: calls) s0).1.pwm ≤ 255 ∧
      ∀ x ∈ (runCalls (Call.initialise nCells iChrg :: calls) s0).2, x ≤ 255) ∧
    (∀ (v i : Nat) (s : LiChargerClass), s.pwm ≤ 255 → overLimit v i s →
      (regulate v i s).pwm = s.pwm - 1 ∧ (s.pwm = 0 → (regulate v i s).pwm = 0)) ∧
    (∀ (v i : Nat) (s : LiChargerClass), s.pwm ≤ 255 → ¬ overLimit v i s →
      underLimit v i s →
      (regulate v i s).pwm = min (s.pwm + 1) 255 ∧
      (s.pwm = 255 → (regulate v i s).pwm = 255)) := by
  refine ⟨runCalls_pwm_le _ s0 h0, ?_, ?_⟩
  · intro v i s hs ho
    have h := regulate_over v i s hs ho
    exact ⟨h, fun hz => by omega⟩
  · intro v i s hs ho hu
    have h := regulate_under v i s hs ho hu
    exact ⟨h, fun hz => by omega⟩

/-- C1 at a concrete run: a charge cycle started from `powerOn`. -/
theorem C1_pwm_stays_in_range_witness :
    powerOn.pwm ≤ 255 ∧
    ((runCalls (Call.initialise 1 1000 ::
        [Call.start, Call.loopHandler 0 3000000 0, Call.loopHandler 2001 3000000 0,
         Call.loopHandler 2002 3000000 0, Call.loopHandler 2103 3000000 0]) powerOn).1.pwm
      ≤ 255) :=
  ⟨by decide, (C1_pwm_stays_in_range powerOn (by decide) 1 1000
    [Call.start, Call.loopHandler 0 3000000 0, Call.loopHandler 2001 3000000 0,
     Call.loopHandler 2002 3000000 0, Call.loopHandler 2103 3000000 0]).1.1⟩

/-! ## The regulator -/

/-- With a cell count that fits a byte and a ceiling whose window sum fits 32
bits, the over-limit test of the source is the test on the exact integers. -/
theorem overLimit_iff (v i : Nat) (s : LiChargerClass) (hn : s.nCells ≤ 255)
    (hI : s.iMax + I_WINDOW < 4294967296) :
    overLimit v i s ↔
      (v > V_MAX * s.nCells + V_WINDOW * s.nCells ∨ i > s.iMax + I_WINDOW) := by
  simp only [overLimit, add32, mul32, V_MAX, V_WINDOW, I_WINDOW] at *
  omega

theorem charge_pwm (ts v i : Nat) (s : LiChargerClass) :
    (charge ts v i s).1.pwm = (regulation ts v i s).1.pwm := by
  simp only [charge, errorDetect_pwm, fullDetect_pwm, safety_pwm]

theorem regulation_tick (ts v i : Nat) (s : LiChargerClass)
    (ht : sub32 ts s.updateTs > UPDATE_DELAY) :
    regulation ts v i s =
      (regulate v i { s with updateTs := ts }, [(regulate v i { s with updateTs := ts }).pwm]) := by
  simp only [regulation, if_pos ht]

theorem regulation_idle (ts v i : Nat) (s : LiChargerClass)
    (ht : ¬ sub32 ts s.updateTs > UPDATE_DELAY) : regulation ts v i s = (s, []) := by
  simp only [regulation, if_neg ht]

theorem loopHandler_charge (ts v i : Nat) (s : LiChargerClass) (ha : s.active = true)
    (hs : s.state = LI_CHARGER_STATE_CHARGE) : loopHandler ts v i s = charge ts v i s := by
  simp [loopHandler, ha, hs]

/-- C2: on a regulation tick in the Charging phase (active, more than
`UPDATE_DELAY` elapsed since `updateTs`) with voltage above
`V_MAX*nCells + V_WINDOW*nCells` or current above `iMax + I_WINDOW`, the new
`pwm` is `max (pwm - 1) 0` (truncated subtraction), and the callback is called
exactly once, with the new `pwm`.  Nothing is assumed about the increase
condition: the over-limit branch is taken whether or not it holds.  The bounds
`nCells ≤ 255`, `pwm ≤ 255` are the members' types; `iMax + I_WINDOW < 2^32`
holds in every reachable Charging state, where `iMax ≤ 65535000`. -/
theorem C2_over_limit_decrements (ts v i : Nat) (s : LiChargerClass)
    (hn : s.nCells ≤ 255) (hp : s.pwm ≤ 255) (hI : s.iMax + I_WINDOW < 4294967296)
    (ha : s.active = true) (hs : s.state = LI_CHARGER_STATE_CHARGE)
    (ht : sub32 ts s.updateTs > UPDATE_DELAY)
    (hover : v > V_MAX * s.nCells + V_WINDOW * s.nCells ∨ i > s.iMax + I_WINDOW) :
    (loopHandler ts v i s).1.pwm = s.pwm - 1 ∧
    (loopHandler ts v i s).2 = [(loopHandler ts v i s).1.pwm] := by
  have ho : overLimit v i { s with updateTs := ts } :=
    (overLimit_iff v i { s with updateTs := ts } hn hI).mpr hover
  have hr : (regulate v i { s with updateTs := ts }).pwm = s.pwm - 1 :=
    regulate_over v i { s with updateTs := ts } hp ho
  rw [loopHandler_charge ts v i s ha hs]
  refine ⟨?_, ?_⟩
  · rw [charge_pwm, regulation_tick ts v i s ht]; exact hr
  · rw [charge_pwm]
    simp only [charge, regulation_tick ts v i s ht]

/-- C2 at a concrete tick: 4.2 V on one cell is over the limit, 5 becomes 4. -/
theorem C2_over_limit_decrements_witness :
    (chargingExample.nCells ≤ 255 ∧ chargingExample.pwm ≤ 255 ∧
      chargingExample.iMax + I_WINDOW < 4294967296 ∧ chargingExample.active = true ∧
      chargingExample.state = LI_CHARGER_STATE_CHARGE ∧
      sub32 2103 chargingExample.updateTs > UPDATE_DELAY ∧
      (4200000 > V_MAX * chargingExample.nCells + V_WINDOW * chargingExample.nCells ∨
        0 > chargingExample.iMax + I_WINDOW)) ∧
    ((loopHandler 2103 4200000 0 chargingExample).1.pwm = chargingExample.pwm - 1 ∧
      (loopHandler 2103 4200000 0 chargingExample).2 =
        [(loopHandler 2103 4200000 0 chargingExample).1.pwm]) :=
  ⟨by decide,
   C2_over_limit_decrements 2103 4200000 0 chargingExample (by decide) (by decide)
     (by decide) (by decide) (by decide) (by decide) (by decide)⟩

/-- C3, the code at the failing input: a one-cell charger of 100 mA nominal
current is brought into Charging by `lowCurrentRun`; its ceiling is 10000 µA
and `pwm` is 0.  On the regulation tick at 2103 ms with 2.5 V and 20000 µA the
tick is not over-limit (20000 ≤ 10000 + 15000), and 20000 is not below the
integer difference 10000 - 15000, yet `pwm` is incremented to 1: the unsigned
difference `iMax - I_WINDOW` wrapped around to 4294962296. -/
theorem C3_small_ceiling_increments :
    (runCalls lowCurrentRun powerOn).1.state = LI_CHARGER_STATE_CHARGE ∧
    (runCalls lowCurrentRun powerOn).1.active = true ∧
    (runCalls lowCurrentRun powerOn).1.nCells = 1 ∧
    (runCalls lowCurrentRun powerOn).1.iMax = 10000 ∧
    (runCalls lowCurrentRun powerOn).1.pwm = 0 ∧
    sub32 2103 (runCalls lowCurrentRun powerOn).1.updateTs > UPDATE_DELAY ∧
    ¬ (2500000 > V_MAX * 1 + V_WINDOW * 1 ∨ 20000 > 10000 + I_WINDOW) ∧
    ¬ ((2500000 : Int) < (V_MAX : Int) * 1 - (V_WINDOW : Int) * 1 ∧
        (20000 : Int) < (10000 : Int) - (I_WINDOW : Int)) ∧
    sub32 10000 I_WINDOW = 4294962296 ∧
    (loopHandler 2103 2500000 20000 (runCalls lowCurrentRun powerOn).1).1.pwm = 1 ∧
    (loopHandler 2103 2500000 20000 (runCalls lowCurrentRun powerOn).1).2 = [1] := by
  decide

/-! ## Standby: the start debounce -/

theorem loopHandler_standby (ts v i : Nat) (s : LiChargerClass) (ha : s.active = true)
    (hs : s.state = LI_CHARGER_STATE_STANDBY) :
    loopHandler ts v i s = (standby ts v s, []) := by
  simp [loopHandler, ha, hs]

theorem loopHandler_standbyEntry (ts v i : Nat) (s : LiChargerClass) (ha : s.active = true)
    (hs : s.state = LI_CHARGER_STATE_STANDBY_E) :
    loopHandler ts v i s = (standby ts v (standbyEntry ts s), [0]) := by
  simp [loopHandler, ha, hs]

theorem loopHandler_inactive (ts v i : Nat) (s : LiChargerClass) (ha : s.active = false) :
    loopHandler ts v i s = (s, []) := by
  simp [loopHandler, ha]

/-- A voltage inside the start window leaves the debounce timer alone. -/
theorem standby_in_window (ts v : Nat) (s : LiChargerClass) (hn : s.nCells ≤ 255)
    (hv : V_START_MIN * s.nCells ≤ v ∧ v ≤ V_START_MAX * s.nCells) :
    standby ts v s =
      if sub32 ts s.startTs > START_DELAY then { s with state := LI_CHARGER_STATE_CHARGE_E }
      else s := by
  have hw : ¬ (v < mul32 V_START_MIN s.nCells ∨ v > mul32 V_START_MAX s.nCells) := by
    simp only [mul32, V_START_MIN, V_START_MAX] at *
    omega
  simp only [standby, if_neg hw]

/-- A voltage outside the start window resets the debounce timer, and the
state is kept. -/
theorem standby_out_of_window (ts v : Nat) (s : LiChargerClass) (hn : s.nCells ≤ 255)
    (hv : v < V_START_MIN * s.nCells ∨ v > V_START_MAX * s.nCells) :
    standby ts v s = { s with startTs := ts } := by
  have hw : v < mul32 V_START_MIN s.nCells ∨ v > mul32 V_START_MAX s.nCells := by
    simp only [mul32, V_START_MIN, V_START_MAX] at *
    omega
  have h0 : ¬ sub32 ts ts > START_DELAY := by
    simp only [sub32, START_DELAY]
    omega
  simp only [standby, if_pos hw, if_neg h0]

/-- C4 as stated fails: one cell at 3.0 V (inside the start window), Standby,
debounce timer reset at 0 ms, poll at exactly 2000 ms: the elapsed time is
`≥ START_DELAY`, but the state stays Standby. -/
theorem C4_counterexample :
    (standbyExample.active = true ∧ standbyExample.state = LI_CHARGER_STATE_STANDBY ∧
      V_START_MIN * standbyExample.nCells ≤ 3000000 ∧
      3000000 ≤ V_START_MAX * standbyExample.nCells) ∧
    sub32 2000 standbyExample.startTs = START_DELAY ∧
    (loopHandler 2000 3000000 0 standbyExample).1.state = LI_CHARGER_STATE_STANDBY ∧
    ¬ ((loopHandler 2000 3000000 0 standbyExample).1.state = LI_CHARGER_STATE_CHARGE_E ↔
        sub32 2000 standbyExample.startTs ≥ START_DELAY) := by
  decide

/-- C4, amended: for an active `loopHandler` call in Standby whose voltage lies
inside `[V_START_MIN*nCells, V_START_MAX*nCells]`, the state becomes
ChargeEntry if and only if the wrap-safe elapsed time `ts - startTs` is
strictly greater than `START_DELAY`; with an elapsed time of at most
`START_DELAY` (2000 ms included) the state stays Standby.  The call changes
nothing else and does not call the callback. -/
theorem C4_standby_starts_after_delay (ts v i : Nat) (s : LiChargerClass)
    (hn : s.nCells ≤ 255) (ha : s.active = true)
    (hs : s.state = LI_CHARGER_STATE_STANDBY)
    (hv : V_START_MIN * s.nCells ≤ v ∧ v ≤ V_START_MAX * s.nCells) :
    ((loopHandler ts v i s).1.state = LI_CHARGER_STATE_CHARGE_E ↔
        sub32 ts s.startTs > START_DELAY) ∧
    (sub32 ts s.startTs ≤ START_DELAY → (loopHandler ts v i s).1 = s) ∧
    (sub32 ts s.startTs > START_DELAY →
        (loopHandler ts v i s).1 = { s with state := LI_CHARGER_STATE_CHARGE_E }) ∧
    (loopHandler ts v i s).2 = [] := by
  rw [loopHandler_standby ts v i s ha hs, standby_in_window ts v s hn hv]
  by_cases h : sub32 ts s.startTs > START_DELAY
  · rw [if_pos h]
    exact ⟨⟨fun _ => h, fun _ => rfl⟩, fun h2 => absurd h (by omega), fun _ => rfl, rfl⟩
  · rw [if_neg h]
    refine ⟨⟨fun h2 => ?_, fun h2 => absurd h2 h⟩, fun _ => rfl, fun h2 => absurd h2 h, rfl⟩
    rw [hs] at h2
    exact absurd h2 (by decide)

/-- C4 (amended) at concrete polls: at 2001 ms the state becomes ChargeEntry. -/
theorem C4_standby_starts_after_delay_witness :
    (standbyExample.nCells ≤ 255 ∧ standbyExample.active = true ∧
      standbyExample.state = LI_CHARGER_STATE_STANDBY ∧
      V_START_MIN * standbyExample.nCells ≤ 3000000 ∧
      3000000 ≤ V_START_MAX * standbyExample.nCells ∧
      sub32 2001 standbyExample.startTs > START_DELAY) ∧
    (loopHandler 2001 3000000 0 standbyExample).1.state = LI_CHARGER_STATE_CHARGE_E :=
  ⟨by decide,
   (C4_standby_starts_after_delay 2001 3000000 0 standbyExample (by decide) (by decide)
     (by decide) (by decide)).1.mpr (by decide)⟩

theorem sub32_self (t : Nat) : sub32 t t = 0 := by
  simp only [sub32]; omega

/-- Advancing the clock by `dt` advances a wrap-safe elapsed time by at most
`dt`. -/
theorem sub32_advance (t dt m : Nat) :
    sub32 ((t + dt) % 4294967296) m ≤ sub32 t m + dt := by
  simp only [sub32]; omega

/-- In Standby, a poll at which the debounce has not expired keeps the state;
the debounce timer is kept or reset to the poll time. -/
theorem standby_keeps (ts v : Nat) (s : LiChargerClass)
    (hs : s.state = LI_CHARGER_STATE_STANDBY) (ht : sub32 ts s.startTs ≤ START_DELAY) :
    (standby ts v s).state = LI_CHARGER_STATE_STANDBY ∧
    ((standby ts v s).startTs = s.startTs ∨ (standby ts v s).startTs = ts) := by
  have h0 : ¬ sub32 ts ts > START_DELAY := by rw [sub32_self]; exact Nat.not_lt_zero _
  have h1 : ¬ sub32 ts s.startTs > START_DELAY := by omega
  unfold standby
  by_cases hw : v < mul32 V_START_MIN s.nCells ∨ v > mul32 V_START_MAX s.nCells
  · simp only [if_pos hw, if_neg h0]
    exact ⟨hs, Or.inr trivial⟩
  · simp only [if_neg hw, if_neg h1]
    exact ⟨hs, Or.inl trivial⟩

/-- Polls that together cover no more than what is left of `START_DELAY` leave
a controller in Standby. -/
theorem standby_run (ticks : List Tick) :
    ∀ (t : Nat) (s : LiChargerClass), s.state = LI_CHARGER_STATE_STANDBY →
      sub32 t s.startTs + span ticks ≤ START_DELAY →
      (runCalls (ticksFrom t ticks) s).1.state = LI_CHARGER_STATE_STANDBY := by
  induction ticks with
  | nil => intro t s hs _; exact hs
  | cons k ks ih =>
    intro t s hs hb
    simp only [span] at hb
    simp only [ticksFrom, runCalls, Call.exec]
    have hadv := sub32_advance t k.dt s.startTs
    cases ha : s.active with
    | false =>
      rw [loopHandler_inactive _ _ _ s ha]
      exact ih _ s hs (by omega)
    | true =>
      rw [loopHandler_standby _ _ _ s ha hs]
      obtain ⟨h1, h2⟩ := standby_keeps ((t + k.dt) % 4294967296) k.v s hs (by omega)
      refine ih _ _ h1 ?_
      rcases h2 with h2 | h2
      · rw [h2]; omega
      · rw [h2, sub32_self]; omega

/-- C5: an active `loopHandler` call in Standby or StandbyEntry at clock value
`t0` with a voltage below `V_START_MIN*nCells` or above `V_START_MAX*nCells`
sets `startTs` to `t0` and leaves the state Standby; and after every sequence
of later polls (clock non-decreasing, wrapping at 2^32) that covers at most
`START_DELAY` ms from `t0`, whatever the voltages and currents, the state is
Standby.  Every prefix of such a sequence is such a sequence, so the state is
Standby after each poll. -/
theorem C5_out_of_window_restarts (t0 v0 i0 : Nat) (s : LiChargerClass)
    (hn : s.nCells ≤ 255) (ha : s.active = true)
    (hs : s.state = LI_CHARGER_STATE_STANDBY ∨ s.state = LI_CHARGER_STATE_STANDBY_E)
    (hv : v0 < V_START_MIN * s.nCells ∨ v0 > V_START_MAX * s.nCells) :
    (loopHandler t0 v0 i0 s).1.startTs = t0 ∧
    (loopHandler t0 v0 i0 s).1.state = LI_CHARGER_STATE_STANDBY ∧
    ∀ ticks : List Tick, span ticks ≤ START_DELAY →
      (runCalls (ticksFrom t0 ticks) (loopHandler t0 v0 i0 s).1).1.state =
        LI_CHARGER_STATE_STANDBY := by
  have key : (loopHandler t0 v0 i0 s).1.startTs = t0 ∧
      (loopHandler t0 v0 i0 s).1.state = LI_CHARGER_STATE_STANDBY := by
    rcases hs with hs | hs
    · rw [loopHandler_standby t0 v0 i0 s ha hs, standby_out_of_window t0 v0 s hn hv]
      exact ⟨rfl, hs⟩
    · rw [loopHandler_standbyEntry t0 v0 i0 s ha hs,
        standby_out_of_window t0 v0 (standbyEntry t0 s) hn hv]
      exact ⟨rfl, rfl⟩
  refine ⟨key.1, key.2, fun ticks hb => ?_⟩
  refine standby_run ticks t0 _ key.2 ?_
  rw [key.1, sub32_self]; omega

/-- C5 at a concrete run: 5.0 V at 1500 ms is out of the window; in-window
polls 500, 1500 and 2000 ms later leave the state Standby, although the timer
mark of `standbyExample` (0 ms) is more than `START_DELAY` in the past. -/
theorem C5_out_of_window_restarts_witness :
    (standbyExample.nCells ≤ 255 ∧ standbyExample.active = true ∧
      (5000000 < V_START_MIN * standbyExample.nCells ∨
        5000000 > V_START_MAX * standbyExample.nCells) ∧
      span [Tick.mk 500 3000000 0, Tick.mk 1000 3000000 0, Tick.mk 500 3000000 0]
        ≤ START_DELAY) ∧
    (runCalls (ticksFrom 1500
        [Tick.mk 500 3000000 0, Tick.mk 1000 3000000 0, Tick.mk 500 3000000 0])
      (loopHandler 1500 5000000 0 standbyExample).1).1.state = LI_CHARGER_STATE_STANDBY :=
  ⟨by decide,
   (C5_out_of_window_restarts 1500 5000000 0 standbyExample (by decide) (by decide)
     (Or.inl (by decide)) (by decide)).2.2 _ (by decide)⟩

/-! ## The current ceiling -/

theorem loopHandler_chargeEntry (ts v i : Nat) (s : LiChargerClass) (ha : s.active = true)
    (hs : s.state = LI_CHARGER_STATE_CHARGE_E) :
    loopHandler ts v i s = charge ts v i (chargeEntry ts s) := by
  simp [loopHandler, ha, hs]

theorem chargeEntry_ceilingOk (ts : Nat) (s : LiChargerClass) (hc : s.iChrg ≤ 65535) :
    ceilingOk (chargeEntry ts s) := by
  simp only [ceilingOk, chargeEntry, mul32, I_SAFE_DIVIDER, if_true]
  omega

/-- The Charging body keeps the ceiling invariant. -/
theorem charge_ceilingOk (ts v i : Nat) (s : LiChargerClass) (hc : s.iChrg ≤ 65535)
    (h : ceilingOk s) : ceilingOk (charge ts v i s).1 := by
  unfold ceilingOk at h ⊢
  rw [charge_iMax, charge_safeCharge, charge_iChrg]
  by_cases hv : v > mul32 V_SAFE s.nCells ∧ s.safeCharge = true
  · rw [if_pos hv, if_pos hv, if_neg (by decide)]
    simp only [mul32]
    omega
  · simp only [if_neg hv]
    exact h

/-- In Standby the state after the body is Standby or ChargeEntry. -/
theorem standby_state (ts v : Nat) (s : LiChargerClass) :
    (standby ts v s).state = s.state ∨ (standby ts v s).state = LI_CHARGER_STATE_CHARGE_E := by
  simp only [standby]
  split_ifs
  · exact Or.inr rfl
  · exact Or.inl rfl
  · exact Or.inr rfl
  · exact Or.inl rfl

/-- The invariant carried along call sequences: the nominal current fits 16
bits, and in the Charging state the ceiling invariant holds. -/
theorem exec_ceiling (c : Call) (s : LiChargerClass) (hc : c.typed)
    (h : s.iChrg ≤ 65535 ∧ (s.state = LI_CHARGER_STATE_CHARGE → ceilingOk s)) :
    (c.exec s).1.iChrg ≤ 65535 ∧
      ((c.exec s).1.state = LI_CHARGER_STATE_CHARGE → ceilingOk (c.exec s).1) := by
  obtain ⟨h1, h2⟩ := h
  cases c with
  | initialise n k =>
    simp only [Call.typed] at hc
    refine ⟨by simp only [Call.exec, initialise]; omega, fun hs => ?_⟩
    simp [Call.exec, initialise] at hs
  | start => exact ⟨h1, h2⟩
  | stop =>
    refine ⟨h1, fun hs => ?_⟩
    simp [Call.exec, stop] at hs
  | loopHandler ts v i =>
    simp only [Call.exec]
    cases ha : s.active with
    | false => rw [loopHandler_inactive ts v i s ha]; exact ⟨h1, h2⟩
    | true =>
      cases hs : s.state with
      | LI_CHARGER_STATE_STANDBY_E =>
        rw [loopHandler_standbyEntry ts v i s ha hs]
        refine ⟨by simpa [standbyEntry] using h1, fun hq => ?_⟩
        rcases standby_state ts v (standbyEntry ts s) with h3 | h3 <;>
          rw [h3] at hq <;> simp [standbyEntry] at hq
      | LI_CHARGER_STATE_STANDBY =>
        rw [loopHandler_standby ts v i s ha hs]
        refine ⟨by simpa using h1, fun hq => ?_⟩
        rcases standby_state ts v s with h3 | h3 <;>
          rw [h3] at hq <;> simp [hs] at hq
      | LI_CHARGER_STATE_CHARGE_E =>
        rw [loopHandler_chargeEntry ts v i s ha hs]
        have h4 : (chargeEntry ts s).iChrg ≤ 65535 := h1
        exact ⟨by simpa using h4, fun _ =>
          charge_ceilingOk ts v i _ h4 (chargeEntry_ceilingOk ts s h1)⟩
      | LI_CHARGER_STATE_CHARGE =>
        rw [loopHandler_charge ts v i s ha hs]
        exact ⟨by simpa using h1, fun _ => charge_ceilingOk ts v i s h1 (h2 hs)⟩

theorem runCalls_ceiling (cs : List Call) :
    ∀ s : LiChargerClass, (∀ c ∈ cs, c.typed) →
      (s.iChrg ≤ 65535 ∧ (s.state = LI_CHARGER_STATE_CHARGE → ceilingOk s)) →
      (runCalls cs s).1.iChrg ≤ 65535 ∧
        ((runCalls cs s).1.state = LI_CHARGER_STATE_CHARGE → ceilingOk (runCalls cs s).1) := by
  induction cs with
  | nil => intro s _ h; exact h
  | cons c cs ih =>
    intro s hc h
    simp only [runCalls]
    exact ih _ (fun d hd => hc d (List.mem_cons_of_mem c hd))
      (exec_ceiling c s (hc c (List.mem_cons_self c cs)) h)

/-- C6: in every state reached from `initialize` (any prior object, cell count
and 16-bit nominal current) by any sequence of `start`/`stop`/`loopHandler`
calls (further `initialize` calls with well-typed arguments are allowed too),
if the state is Charging then `iMax` equals `iChrg*1000 / I_SAFE_DIVIDER` when
`safeCharge` is true and `iChrg*1000` when it is false. -/
theorem C6_ceiling_invariant (s0 : LiChargerClass) (nCells iChrg : Nat)
    (hc : iChrg ≤ 65535) (calls : List Call) (hcalls : ∀ c ∈ calls, c.typed)
    (hs : (runCalls (Call.initialise nCells iChrg :: calls) s0).1.state =
      LI_CHARGER_STATE_CHARGE) :
    (runCalls (Call.initialise nCells iChrg :: calls) s0).1.iMax =
      if (runCalls (Call.initialise nCells iChrg :: calls) s0).1.safeCharge = true then
        (runCalls (Call.initialise nCells iChrg :: calls) s0).1.iChrg * 1000 / I_SAFE_DIVIDER
      else (runCalls (Call.initialise nCells iChrg :: calls) s0).1.iChrg * 1000 := by
  have h := runCalls_ceiling calls (Call.exec (Call.initialise nCells iChrg) s0).1 hcalls
    ⟨hc, fun hq => by simp [Call.exec, initialise] at hq⟩
  exact h.2 hs

/-- C6 at a concrete run: a 100 mA charger brought into Charging in safety
mode has the ceiling 100*1000/10 µA. -/
theorem C6_ceiling_invariant_witness :
    ((100 : Nat) ≤ 65535 ∧
      (runCalls (Call.initialise 1 100 ::
        [Call.start, Call.loopHandler 0 3000000 0, Call.loopHandler 2001 3000000 0,
         Call.loopHandler 2002 2500000 20000]) powerOn).1.state = LI_CHARGER_STATE_CHARGE) ∧
    (runCalls (Call.initialise 1 100 ::
        [Call.start, Call.loopHandler 0 3000000 0, Call.loopHandler 2001 3000000 0,
         Call.loopHandler 2002 2500000 20000]) powerOn).1.iMax =
      if (runCalls (Call.initialise 1 100 ::
        [Call.start, Call.loopHandler 0 3000000 0, Call.loopHandler 2001 3000000 0,
         Call.loopHandler 2002 2500000 20000]) powerOn).1.safeCharge = true then
        (runCalls (Call.initialise 1 100 ::
          [Call.start, Call.loopHandler 0 3000000 0, Call.loopHandler 2001 3000000 0,
           Call.loopHandler 2002 2500000 20000]) powerOn).1.iChrg * 1000 / I_SAFE_DIVIDER
      else
        (runCalls (Call.initialise 1 100 ::
          [Call.start, Call.loopHandler 0 3000000 0, Call.loopHandler 2001 3000000 0,
           Call.loopHandler 2002 2500000 20000]) powerOn).1.iChrg * 1000 :=
  ⟨by decide,
   C6_ceiling_invariant powerOn 1 100 (by decide)
     [Call.start, Call.loopHandler 0 3000000 0, Call.loopHandler 2001 3000000 0,
      Call.loopHandler 2002 2500000 20000] (by decide) (by decide)⟩

/-! ## The safety current limiter -/

theorem charge_safeCharge_of_false (ts v i : Nat) (s : LiChargerClass)
    (h : s.safeCharge = false) :
    (charge ts v i s).1.safeCharge = false ∧ (charge ts v i s).1.iMax = s.iMax := by
  rw [charge_safeCharge, charge_iMax]
  have hv : ¬ (v > mul32 V_SAFE s.nCells ∧ s.safeCharge = true) := by
    rw [h]; exact fun hh => absurd hh.2 (by decide)
  rw [if_neg hv, if_neg hv]
  exact ⟨h, rfl⟩

theorem charge_safeCharge_of_high (ts v i : Nat) (s : LiChargerClass)
    (hn : s.nCells ≤ 255) (hc : s.iChrg ≤ 65535) (h : s.safeCharge = true)
    (hv : v > V_SAFE * s.nCells) :
    (charge ts v i s).1.safeCharge = false ∧ (charge ts v i s).1.iMax = s.iChrg * 1000 := by
  rw [charge_safeCharge, charge_iMax]
  have hw : v > mul32 V_SAFE s.nCells ∧ s.safeCharge = true := by
    refine ⟨?_, h⟩
    simp only [mul32, V_SAFE] at *
    omega
  rw [if_pos hw, if_pos hw]
  refine ⟨rfl, ?_⟩
  simp only [mul32]
  omega

/-- C7: leaving safety mode is immediate and one-way within a charge cycle.
(a) An active Charging tick (started in Charging with the ceiling invariant of
C6, or in ChargeEntry) with voltage above `V_SAFE*nCells` ends with
`safeCharge = false` and `iMax = iChrg*1000`, the full nominal current.
(b) A tick that starts in the steady Charging state with `safeCharge = false`
ends with `safeCharge = false` and `iMax` unchanged, whatever the voltage,
current and clock.
(c) If any call (`initialize`, `start`, `stop`, `loopHandler`) turns
`safeCharge` from false to true, it is an active `loopHandler` call that
started in ChargeEntry. -/
theorem C7_safety_exit_one_way (ts v i : Nat) (s : LiChargerClass) (c : Call) :
    (s.nCells ≤ 255 → s.iChrg ≤ 65535 → s.active = true →
      ((s.state = LI_CHARGER_STATE_CHARGE ∧ ceilingOk s) ∨
        s.state = LI_CHARGER_STATE_CHARGE_E) →
      v > V_SAFE * s.nCells →
      (loopHandler ts v i s).1.safeCharge = false ∧
        (loopHandler ts v i s).1.iMax = s.iChrg * 1000) ∧
    (s.state = LI_CHARGER_STATE_CHARGE → s.safeCharge = false →
      (loopHandler ts v i s).1.safeCharge = false ∧
        (loopHandler ts v i s).1.iMax = s.iMax) ∧
    (s.safeCharge = false → (c.exec s).1.safeCharge = true →
      ∃ t u j, c = Call.loopHandler t u j ∧ s.active = true ∧
        s.state = LI_CHARGER_STATE_CHARGE_E) := by
  refine ⟨?_, ?_, ?_⟩
  · intro hn hc ha hs hv
    rcases hs with ⟨hs, hok⟩ | hs
    · rw [loopHandler_charge ts v i s ha hs]
      cases hsafe : s.safeCharge with
      | true => exact charge_safeCharge_of_high ts v i s hn hc hsafe hv
      | false =>
        obtain ⟨h1, h2⟩ := charge_safeCharge_of_false ts v i s hsafe
        refine ⟨h1, ?_⟩
        rw [h2]
        unfold ceilingOk at hok
        rw [hok, hsafe, if_neg (by decide)]
    · rw [loopHandler_chargeEntry ts v i s ha hs]
      exact charge_safeCharge_of_high ts v i (chargeEntry ts s) hn hc rfl hv
  · intro hs hsafe
    cases ha : s.active with
    | false => rw [loopHandler_inactive ts v i s ha]; exact ⟨hsafe, rfl⟩
    | true =>
      rw [loopHandler_charge ts v i s ha hs]
      exact charge_safeCharge_of_false ts v i s hsafe
  · intro hsafe hafter
    cases c with
    | initialise n k =>
      simp only [Call.exec, initialise] at hafter
      rw [hsafe] at hafter; exact absurd hafter (by decide)
    | start =>
      simp only [Call.exec, start] at hafter
      rw [hsafe] at hafter; exact absurd hafter (by decide)
    | stop =>
      simp only [Call.exec, stop] at hafter
      rw [hsafe] at hafter; exact absurd hafter (by decide)
    | loopHandler t u j =>
      simp only [Call.exec] at hafter
      cases ha : s.active with
      | false =>
        rw [loopHandler_inactive t u j s ha, hsafe] at hafter
        exact absurd hafter (by decide)
      | true =>
        cases hs : s.state with
        | LI_CHARGER_STATE_STANDBY_E =>
          rw [loopHandler_standbyEntry t u j s ha hs] at hafter
          simp only [standby_safeCharge, standbyEntry] at hafter
          rw [hsafe] at hafter; exact absurd hafter (by decide)
        | LI_CHARGER_STATE_STANDBY =>
          rw [loopHandler_standby t u j s ha hs] at hafter
          simp only [standby_safeCharge] at hafter
          rw [hsafe] at hafter; exact absurd hafter (by decide)
        | LI_CHARGER_STATE_CHARGE_E => exact ⟨t, u, j, rfl, rfl, rfl⟩
        | LI_CHARGER_STATE_CHARGE =>
          rw [loopHandler_charge t u j s ha hs,
            (charge_safeCharge_of_false t u j s hsafe).1] at hafter
          exact absurd hafter (by decide)

/-- C7 at a concrete tick: 3.0 V on one cell is above `V_SAFE`, so the tick
leaves safety mode and raises the ceiling from 100000 to 1000000 µA. -/
theorem C7_safety_exit_one_way_witness :
    (chargingExample.nCells ≤ 255 ∧ chargingExample.iChrg ≤ 65535 ∧
      chargingExample.active = true ∧
      chargingExample.state = LI_CHARGER_STATE_CHARGE ∧ ceilingOk chargingExample ∧
      3000000 > V_SAFE * chargingExample.nCells) ∧
    ((loopHandler 2010 3000000 0 chargingExample).1.safeCharge = false ∧
      (loopHandler 2010 3000000 0 chargingExample).1.iMax = chargingExample.iChrg * 1000) :=
  ⟨by decide,
   (C7_safety_exit_one_way 2010 3000000 0 chargingExample Call.start).1
     (by decide) (by decide) (by decide) (Or.inl ⟨by decide, by decide⟩) (by decide)⟩

/-! ## The completion and abort detectors -/

theorem mul32_I_FULL : mul32 I_FULL 1000 = I_FULL * 1000 := by decide

/-- The poll after a detector fired: StandbyEntry zeroes the output and falls
through into Standby, where the freshly reset debounce cannot have expired. -/
theorem loopHandler_after_standbyEntry (ts v i : Nat) (s : LiChargerClass)
    (ha : s.active = true) (hs : s.state = LI_CHARGER_STATE_STANDBY_E) :
    (loopHandler ts v i s).1.pwm = 0 ∧ (loopHandler ts v i s).2 = [0] ∧
    (loopHandler ts v i s).1.state = LI_CHARGER_STATE_STANDBY ∧
    (loopHandler ts v i s).1.startTs = ts := by
  rw [loopHandler_standbyEntry ts v i s ha hs]
  have h0 : sub32 ts (standbyEntry ts s).startTs ≤ START_DELAY := by
    show sub32 ts ts ≤ START_DELAY
    rw [sub32_self]; exact Nat.zero_le _
  obtain ⟨h1, h2⟩ := standby_keeps ts v (standbyEntry ts s) rfl h0
  refine ⟨by rw [standby_pwm]; rfl, rfl, h1, ?_⟩
  rcases h2 with h2 | h2
  · rw [h2]; rfl
  · exact h2

/-- In the Charging state, the state after a poll is StandbyEntry exactly when
one of the two detectors fires, and Charging otherwise. -/
theorem charge_state_cases (ts v i : Nat) (s : LiChargerClass)
    (hs : s.state = LI_CHARGER_STATE_CHARGE) :
    ((charge ts v i s).1.state = LI_CHARGER_STATE_STANDBY_E ↔
      (sub32 ts (charge ts v i s).1.errorTs > ERROR_DELAY ∨
        sub32 ts (charge ts v i s).1.fullTs > FULL_DELAY)) ∧
    ((charge ts v i s).1.state = LI_CHARGER_STATE_STANDBY_E ∨
      (charge ts v i s).1.state = LI_CHARGER_STATE_CHARGE) := by
  have h := charge_state ts v i s
  by_cases hd : sub32 ts (charge ts v i s).1.errorTs > ERROR_DELAY ∨
      sub32 ts (charge ts v i s).1.fullTs > FULL_DELAY
  · rw [if_pos hd] at h
    exact ⟨⟨fun _ => hd, fun _ => h⟩, Or.inl h⟩
  · rw [if_neg hd, hs] at h
    refine ⟨⟨fun h2 => ?_, fun h2 => absurd h2 hd⟩, Or.inr h⟩
    rw [h] at h2
    exact absurd h2 (by decide)

/-- C8: on an active poll in the Charging state,
(1) if safety mode is still on after the limiter update, or the current
exceeds `I_FULL` (200 mA, i.e. `I_FULL*1000` µA), then `fullTs` is set to the
poll time, the end-of-charge test `ts - fullTs > FULL_DELAY` is false, and the
state can only become StandbyEntry through the error detector;
(2) if the current is at most `I_FULL` and safety mode is off, `fullTs` is left
as it was, and when more than `FULL_DELAY` has elapsed since `fullTs` the
state becomes StandbyEntry; the next active `loopHandler` call, whatever its
inputs, then sets `pwm = 0`, calls the callback exactly once with 0 and leaves
the state Standby. -/
theorem C8_full_detector (ts v i ts2 v2 i2 : Nat) (s : LiChargerClass)
    (ha : s.active = true) (hs : s.state = LI_CHARGER_STATE_CHARGE) :
    (((loopHandler ts v i s).1.safeCharge = true ∨ i > I_FULL * 1000) →
      (loopHandler ts v i s).1.fullTs = ts ∧
      ¬ sub32 ts (loopHandler ts v i s).1.fullTs > FULL_DELAY ∧
      ((loopHandler ts v i s).1.state = LI_CHARGER_STATE_STANDBY_E →
        sub32 ts (loopHandler ts v i s).1.errorTs > ERROR_DELAY)) ∧
    (i ≤ I_FULL * 1000 → (loopHandler ts v i s).1.safeCharge = false →
      (loopHandler ts v i s).1.fullTs = s.fullTs ∧
      (sub32 ts s.fullTs > FULL_DELAY →
        (loopHandler ts v i s).1.state = LI_CHARGER_STATE_STANDBY_E ∧
        (loopHandler ts v i s).1.active = true ∧
        (loopHandler ts2 v2 i2 (loopHandler ts v i s).1).1.pwm = 0 ∧
        (loopHandler ts2 v2 i2 (loopHandler ts v i s).1).2 = [0] ∧
        (loopHandler ts2 v2 i2 (loopHandler ts v i s).1).1.state =
          LI_CHARGER_STATE_STANDBY)) := by
  rw [loopHandler_charge ts v i s ha hs]
  have hfull := charge_fullTs ts v i s
  rw [mul32_I_FULL] at hfull
  obtain ⟨hiff, _⟩ := charge_state_cases ts v i s hs
  refine ⟨fun hcond => ?_, fun hi hsafe => ?_⟩
  · have hc : i > I_FULL * 1000 ∨ (charge ts v i s).1.safeCharge = true := hcond.symm
    rw [if_pos hc] at hfull
    have h0 : ¬ sub32 ts (charge ts v i s).1.fullTs > FULL_DELAY := by
      rw [hfull, sub32_self]; exact Nat.not_lt_zero _
    refine ⟨hfull, h0, fun hst => ?_⟩
    rcases hiff.mp hst with h | h
    · exact h
    · exact absurd h h0
  · have hc : ¬ (i > I_FULL * 1000 ∨ (charge ts v i s).1.safeCharge = true) := by
      rw [hsafe]
      intro h
      rcases h with h | h
      · omega
      · exact absurd h (by decide)
    rw [if_neg hc] at hfull
    refine ⟨hfull, fun hexp => ?_⟩
    have hst : (charge ts v i s).1.state = LI_CHARGER_STATE_STANDBY_E :=
      hiff.mpr (Or.inr (by rw [hfull]; exact hexp))
    have hact : (charge ts v i s).1.active = true := by rw [charge_active]; exact ha
    obtain ⟨h1, h2, h3, _⟩ :=
      loopHandler_after_standbyEntry ts2 v2 i2 (charge ts v i s).1 hact hst
    exact ⟨hst, hact, h1, h2, h3⟩

/-- C8 at a concrete poll: 100 mA outside safety mode, 20050 ms after the last
reset of `fullTs`; the next poll zeroes the output. -/
theorem C8_full_detector_witness :
    (taperedExample.active = true ∧ taperedExample.state = LI_CHARGER_STATE_CHARGE ∧
      100000 ≤ I_FULL * 1000 ∧
      (loopHandler 30050 4150000 100000 taperedExample).1.safeCharge = false ∧
      sub32 30050 taperedExample.fullTs > FULL_DELAY) ∧
    ((loopHandler 30050 4150000 100000 taperedExample).1.state =
        LI_CHARGER_STATE_STANDBY_E ∧
      (loopHandler 30050 4150000 100000 taperedExample).1.active = true ∧
      (loopHandler 30060 4150000 0
        (loopHandler 30050 4150000 100000 taperedExample).1).1.pwm = 0 ∧
      (loopHandler 30060 4150000 0
        (loopHandler 30050 4150000 100000 taperedExample).1).2 = [0] ∧
      (loopHandler 30060 4150000 0
        (loopHandler 30050 4150000 100000 taperedExample).1).1.state =
          LI_CHARGER_STATE_STANDBY) :=
  ⟨by decide,
   ((C8_full_detector 30050 4150000 100000 30060 4150000 0 taperedExample
     (by decide) (by decide)).2 (by decide) (by decide)).2 (by decide)⟩

/-- A poll leaves the error timer alone or sets it to the poll time. -/
theorem loopHandler_errorTs (ts v i : Nat) (s : LiChargerClass) :
    (loopHandler ts v i s).1.errorTs = s.errorTs ∨ (loopHandler ts v i s).1.errorTs = ts := by
  cases ha : s.active with
  | false => rw [loopHandler_inactive ts v i s ha]; exact Or.inl rfl
  | true =>
    cases hs : s.state with
    | LI_CHARGER_STATE_STANDBY_E =>
      rw [loopHandler_standbyEntry ts v i s ha hs, standby_errorTs]; exact Or.inl rfl
    | LI_CHARGER_STATE_STANDBY =>
      rw [loopHandler_standby ts v i s ha hs, standby_errorTs]; exact Or.inl rfl
    | LI_CHARGER_STATE_CHARGE_E =>
      rw [loopHandler_chargeEntry ts v i s ha hs, charge_errorTs]
      split_ifs
      · exact Or.inr rfl
      · exact Or.inr rfl
    | LI_CHARGER_STATE_CHARGE =>
      rw [loopHandler_charge ts v i s ha hs, charge_errorTs]
      split_ifs
      · exact Or.inr rfl
      · exact Or.inl rfl

/-- Polls that together cover no more than what is left of `ERROR_DELAY` end
with the error test `ts - errorTs > ERROR_DELAY` false. -/
theorem errorTs_run (ticks : List Tick) :
    ∀ (t : Nat) (s : LiChargerClass), sub32 t s.errorTs + span ticks ≤ ERROR_DELAY →
      sub32 (clockAfter t ticks) (runCalls (ticksFrom t ticks) s).1.errorTs ≤ ERROR_DELAY := by
  induction ticks with
  | nil =>
    intro t s hb
    simp only [span] at hb
    simpa [clockAfter, ticksFrom, runCalls] using hb
  | cons k ks ih =>
    intro t s hb
    simp only [span] at hb
    simp only [ticksFrom, runCalls, Call.exec, clockAfter]
    have hadv := sub32_advance t k.dt s.errorTs
    refine ih _ _ ?_
    rcases loopHandler_errorTs ((t + k.dt) % 4294967296) k.v k.i s with h | h
    · rw [h]; omega
    · rw [h, sub32_self]; omega

/-- C9: on an active poll in the Charging state,
(1) a voltage below `V_SURGE*nCells` sets `errorTs` to the poll time, the error
test `ts - errorTs > ERROR_DELAY` is false, and the state becomes StandbyEntry
only if the end-of-charge detector fires;
(2) a voltage at or above `V_SURGE*nCells` leaves `errorTs` untouched, and the
state becomes StandbyEntry exactly when more than `ERROR_DELAY` has elapsed
since `errorTs` or the end-of-charge detector fires (it stays Charging
otherwise);
(3) after a poll with a voltage below `V_SURGE*nCells`, the error test is false
at the end of every sequence of later polls that covers at most `ERROR_DELAY`
ms: an abort needs the voltage at or above the threshold on every poll of a
span longer than `ERROR_DELAY`. -/
theorem C9_surge_detector (ts v i : Nat) (s : LiChargerClass)
    (hn : s.nCells ≤ 255) (ha : s.active = true) (hs : s.state = LI_CHARGER_STATE_CHARGE) :
    (v < V_SURGE * s.nCells →
      (loopHandler ts v i s).1.errorTs = ts ∧
      ¬ sub32 ts (loopHandler ts v i s).1.errorTs > ERROR_DELAY ∧
      ((loopHandler ts v i s).1.state = LI_CHARGER_STATE_STANDBY_E →
        sub32 ts (loopHandler ts v i s).1.fullTs > FULL_DELAY)) ∧
    (v ≥ V_SURGE * s.nCells →
      (loopHandler ts v i s).1.errorTs = s.errorTs ∧
      ((loopHandler ts v i s).1.state = LI_CHARGER_STATE_STANDBY_E ↔
        (sub32 ts s.errorTs > ERROR_DELAY ∨
          sub32 ts (loopHandler ts v i s).1.fullTs > FULL_DELAY)) ∧
      ((loopHandler ts v i s).1.state = LI_CHARGER_STATE_STANDBY_E ∨
        (loopHandler ts v i s).1.state = LI_CHARGER_STATE_CHARGE)) ∧
    (v < V_SURGE * s.nCells → ∀ ticks : List Tick, span ticks ≤ ERROR_DELAY →
      sub32 (clockAfter ts ticks)
        (runCalls (ticksFrom ts ticks) (loopHandler ts v i s).1).1.errorTs ≤ ERROR_DELAY) := by
  rw [loopHandler_charge ts v i s ha hs]
  have herr := charge_errorTs ts v i s
  obtain ⟨hiff, hor⟩ := charge_state_cases ts v i s hs
  have hlow : v < V_SURGE * s.nCells → (charge ts v i s).1.errorTs = ts := by
    intro hv
    have hw : v < mul32 V_SURGE s.nCells := by
      simp only [mul32, V_SURGE] at *
      omega
    rw [if_pos hw] at herr
    exact herr
  refine ⟨fun hv => ?_, fun hv => ?_, fun hv ticks hb => ?_⟩
  · have h0 : ¬ sub32 ts (charge ts v i s).1.errorTs > ERROR_DELAY := by
      rw [hlow hv, sub32_self]; exact Nat.not_lt_zero _
    refine ⟨hlow hv, h0, fun hst => ?_⟩
    rcases hiff.mp hst with h | h
    · exact absurd h h0
    · exact h
  · have hw : ¬ v < mul32 V_SURGE s.nCells := by
      simp only [mul32, V_SURGE] at *
      omega
    rw [if_neg hw] at herr
    rw [herr] at hiff
    exact ⟨herr, hiff, hor⟩
  · refine errorTs_run ticks ts _ ?_
    rw [hlow hv, sub32_self]; omega

/-- C9 at a concrete poll: 4.3 V on one cell, 151 ms after the last reset of
`errorTs`, aborts the charge. -/
theorem C9_surge_detector_witness :
    (chargingExample.nCells ≤ 255 ∧ chargingExample.active = true ∧
      chargingExample.state = LI_CHARGER_STATE_CHARGE ∧
      4300000 ≥ V_SURGE * chargingExample.nCells ∧
      sub32 2153 chargingExample.errorTs > ERROR_DELAY) ∧
    (loopHandler 2153 4300000 0 chargingExample).1.state = LI_CHARGER_STATE_STANDBY_E :=
  ⟨by decide,
   ((C9_surge_detector 2153 4300000 0 chargingExample (by decide) (by decide)
     (by decide)).2.1 (by decide)).2.1.mpr (Or.inl (by decide))⟩

/-! ## Suspended processing -/

/-- C10: when `active` is false, `loopHandler` returns the state it was given,
for every voltage, current and clock value: state, `pwm`, `iMax`,
`safeCharge`, the four timers and the configuration are unchanged, and the
callback is not called. -/
theorem C10_inactive_is_noop (ts v i : Nat) (s : LiChargerClass)
    (ha : s.active = false) :
    (loopHandler ts v i s).1 = s ∧ (loopHandler ts v i s).2 = [] := by
  rw [loopHandler_inactive ts v i s ha]
  exact ⟨rfl, rfl⟩

/-- C10 at a concrete call: a poll of the inactive `powerOn` object. -/
theorem C10_inactive_is_noop_witness :
    powerOn.active = false ∧
    ((loopHandler 5000 3000000 100000 powerOn).1 = powerOn ∧
      (loopHandler 5000 3000000 100000 powerOn).2 = []) :=
  ⟨by decide, C10_inactive_is_noop 5000 3000000 100000 powerOn (by decide)⟩

/-! ## Lifecycle: stop, start, initialize -/

/-- C11: from every state, `stop` yields `active = false`, `pwm = 0` and state
StandbyEntry, calls the callback exactly once, with 0, and leaves `nCells`,
`iChrg`, `iMax`, `safeCharge` and the four timers unchanged; a second `stop`
leaves the state reached by the first. -/
theorem C11_stop_resets (s : LiChargerClass) :
    ((stop s).1.active = false ∧ (stop s).1.pwm = 0 ∧
      (stop s).1.state = LI_CHARGER_STATE_STANDBY_E) ∧
    (stop s).2 = [0] ∧
    ((stop s).1.nCells = s.nCells ∧ (stop s).1.iChrg = s.iChrg ∧
      (stop s).1.iMax = s.iMax ∧ (stop s).1.safeCharge = s.safeCharge ∧
      (stop s).1.startTs = s.startTs ∧ (stop s).1.updateTs = s.updateTs ∧
      (stop s).1.fullTs = s.fullTs ∧ (stop s).1.errorTs = s.errorTs) ∧
    (stop (stop s).1).1 = (stop s).1 :=
  ⟨⟨rfl, rfl, rfl⟩, rfl, ⟨rfl, rfl, rfl, rfl, rfl, rfl, rfl, rfl⟩, rfl⟩

/-- C12: after `stop` followed by `start`, from any prior state, the first
`loopHandler` call ends in Standby for every voltage, current and clock value,
with `pwm = 0`, the callback called with 0 and `startTs` equal to the clock
value; and after every sequence of later polls that covers at most
`START_DELAY` ms from that first poll the state is still Standby, so it is
neither ChargeEntry nor Charging. -/
theorem C12_restart_debounces (ts v i : Nat) (s : LiChargerClass) :
    ((loopHandler ts v i (start (stop s).1).1).1.state = LI_CHARGER_STATE_STANDBY ∧
      (loopHandler ts v i (start (stop s).1).1).1.pwm = 0 ∧
      (loopHandler ts v i (start (stop s).1).1).2 = [0] ∧
      (loopHandler ts v i (start (stop s).1).1).1.startTs = ts) ∧
    ∀ ticks : List Tick, span ticks ≤ START_DELAY →
      (runCalls (ticksFrom ts ticks)
        (loopHandler ts v i (start (stop s).1).1).1).1.state = LI_CHARGER_STATE_STANDBY := by
  obtain ⟨h1, h2, h3, h4⟩ :=
    loopHandler_after_standbyEntry ts v i (start (stop s).1).1 rfl rfl
  refine ⟨⟨h3, h1, h2, h4⟩, fun ticks hb => ?_⟩
  refine standby_run ticks ts _ h3 ?_
  rw [h4, sub32_self]; omega

/-- C12 at a concrete run: stopped mid-charge and restarted at 3.0 V, the
controller is still in Standby 2000 ms after the first poll. -/
theorem C12_restart_debounces_witness :
    span [Tick.mk 1000 3000000 0, Tick.mk 1000 3000000 0] ≤ START_DELAY ∧
    (runCalls (ticksFrom 5000 [Tick.mk 1000 3000000 0, Tick.mk 1000 3000000 0])
      (loopHandler 5000 3000000 0 (start (stop chargingExample).1).1).1).1.state =
        LI_CHARGER_STATE_STANDBY :=
  ⟨by decide,
   (C12_restart_debounces 5000 3000000 0 chargingExample).2
     [Tick.mk 1000 3000000 0, Tick.mk 1000 3000000 0] (by decide)⟩

/-- C13 as stated fails: `chargingExample` is an object on which `start` was
called (`active = true`); after `initialize` it is still active, and a
`loopHandler` call made before any new `start` runs StandbyEntry (callback
called with 0, state Standby) instead of doing nothing. -/
theorem C13_counterexample :
    chargingExample.active = true ∧
    (initialise 1 1000 chargingExample).1.active = true ∧
    (loopHandler 0 3000000 0 (initialise 1 1000 chargingExample).1).2 = [0] ∧
    (loopHandler 0 3000000 0 (initialise 1 1000 chargingExample).1).1 ≠
      (initialise 1 1000 chargingExample).1 := by
  decide

/-- C13, amended: for every prior state, after `initialize` the configuration
holds the given arguments and the state is StandbyEntry; `active` and every
other member keep their prior values and the callback is not called.  So when
`active` was false before `initialize` (no `start` since construction or since
the last `stop`), a `loopHandler` call made before any `start` is a no-op. -/
theorem C13_initialise_configures (nCells iChrg ts v i : Nat) (s : LiChargerClass) :
    ((initialise nCells iChrg s).1.nCells = nCells ∧
      (initialise nCells iChrg s).1.iChrg = iChrg ∧
      (initialise nCells iChrg s).1.state = LI_CHARGER_STATE_STANDBY_E) ∧
    (initialise nCells iChrg s).1 =
      { s with nCells := nCells, iChrg := iChrg, state := LI_CHARGER_STATE_STANDBY_E } ∧
    (initialise nCells iChrg s).1.active = s.active ∧
    (initialise nCells iChrg s).2 = [] ∧
    (s.active = false →
      loopHandler ts v i (initialise nCells iChrg s).1 = ((initialise nCells iChrg s).1, [])) :=
  ⟨⟨rfl, rfl, rfl⟩, rfl, rfl, rfl,
    fun ha => loopHandler_inactive ts v i (initialise nCells iChrg s).1 ha⟩

/-- C13 (amended) at a concrete call: the inactive `powerOn` object stays
inactive, and a poll before `start` does nothing. -/
theorem C13_initialise_configures_witness :
    powerOn.active = false ∧
    loopHandler 0 3000000 0 (initialise 1 1000 powerOn).1 =
      ((initialise 1 1000 powerOn).1, []) :=
  ⟨by decide, (C13_initialise_configures 1 1000 0 3000000 0 powerOn).2.2.2.2 (by decide)⟩

/-! ## Clock shift invariance -/

/-- A wrap-safe difference does not change when both clock values are
advanced by the same amount. -/
theorem sub32_shift (t m k : Nat) :
    sub32 ((t + k) % 4294967296) ((m + k) % 4294967296) = sub32 t m := by
  simp only [sub32]; omega

theorem standby_shift (k ts v : Nat) (s : LiChargerClass) :
    standby ((ts + k) % 4294967296) v (shiftClock k s) = shiftClock k (standby ts v s) := by
  simp only [standby, shiftClock]
  split_ifs <;> first | rfl | (exfalso; simp only [sub32] at *; omega)

theorem regulate_shift (k v i : Nat) (s : LiChargerClass) :
    regulate v i (shiftClock k s) = shiftClock k (regulate v i s) := by
  simp only [regulate, overLimit, underLimit, shiftClock]
  split_ifs <;> rfl

theorem regulation_shift (k ts v i : Nat) (s : LiChargerClass) :
    regulation ((ts + k) % 4294967296) v i (shiftClock k s) =
      (shiftClock k (regulation ts v i s).1, (regulation ts v i s).2) := by
  have h1 : sub32 ((ts + k) % 4294967296) (shiftClock k s).updateTs = sub32 ts s.updateTs :=
    sub32_shift ts s.updateTs k
  have h2 : ({ shiftClock k s with updateTs := (ts + k) % 4294967296 } : LiChargerClass) =
      shiftClock k { s with updateTs := ts } := rfl
  unfold regulation
  rw [h1]
  split_ifs
  · simp only [h2, regulate_shift]
    exact Prod.ext rfl (by simp [shiftClock])
  · rfl

theorem safety_shift (k v : Nat) (s : LiChargerClass) :
    safety v (shiftClock k s) = shiftClock k (safety v s) := by
  simp only [safety, shiftClock]
  split_ifs <;> rfl

theorem fullDetect_shift (k ts i : Nat) (s : LiChargerClass) :
    fullDetect ((ts + k) % 4294967296) i (shiftClock k s) =
      shiftClock k (fullDetect ts i s) := by
  simp only [fullDetect, shiftClock]
  split_ifs <;> first | rfl | (exfalso; simp only [sub32] at *; omega)

theorem errorDetect_shift (k ts v : Nat) (s : LiChargerClass) :
    errorDetect ((ts + k) % 4294967296) v (shiftClock k s) =
      shiftClock k (errorDetect ts v s) := by
  simp only [errorDetect, shiftClock]
  split_ifs <;> first | rfl | (exfalso; simp only [sub32] at *; omega)

theorem charge_shift (k ts v i : Nat) (s : LiChargerClass) :
    charge ((ts + k) % 4294967296) v i (shiftClock k s) =
      (shiftClock k (charge ts v i s).1, (charge ts v i s).2) := by
  simp only [charge, regulation_shift, safety_shift, fullDetect_shift, errorDetect_shift]

theorem loopHandler_shift (k ts v i : Nat) (s : LiChargerClass) :
    loopHandler ((ts + k) % 4294967296) v i (shiftClock k s) =
      (shiftClock k (loopHandler ts v i s).1, (loopHandler ts v i s).2) := by
  have ha : (shiftClock k s).active = s.active := rfl
  have hst : (shiftClock k s).state = s.state := rfl
  cases hact : s.active with
  | false =>
    rw [loopHandler_inactive _ v i (shiftClock k s) (ha.trans hact),
      loopHandler_inactive ts v i s hact]
  | true =>
    cases hs : s.state with
    | LI_CHARGER_STATE_STANDBY_E =>
      rw [loopHandler_standbyEntry _ v i (shiftClock k s) (ha.trans hact) (hst.trans hs),
        loopHandler_standbyEntry ts v i s hact hs]
      have he : standbyEntry ((ts + k) % 4294967296) (shiftClock k s) =
          shiftClock k (standbyEntry ts s) := rfl
      rw [he, standby_shift]
    | LI_CHARGER_STATE_STANDBY =>
      rw [loopHandler_standby _ v i (shiftClock k s) (ha.trans hact) (hst.trans hs),
        loopHandler_standby ts v i s hact hs, standby_shift]
    | LI_CHARGER_STATE_CHARGE_E =>
      rw [loopHandler_chargeEntry _ v i (shiftClock k s) (ha.trans hact) (hst.trans hs),
        loopHandler_chargeEntry ts v i s hact hs]
      have he : chargeEntry ((ts + k) % 4294967296) (shiftClock k s) =
          shiftClock k (chargeEntry ts s) := rfl
      rw [he, charge_shift]
    | LI_CHARGER_STATE_CHARGE =>
      rw [loopHandler_charge _ v i (shiftClock k s) (ha.trans hact) (hst.trans hs),
        loopHandler_charge ts v i s hact hs, charge_shift]

/-- C14: `loopHandler` depends on time only through wrap-safe differences.
For every state, every offset `k` and every input, running `loopHandler` on
the state with its four timers and the clock value all advanced by `k` modulo
2^32 gives the unshifted result with its four timers advanced by `k`, and the
same callback calls; so state, `pwm`, `iMax` and `safeCharge` coincide.  The
elapsed time `ts - mark` itself is unchanged by the shift, also when the clock
wraps between the mark and the poll. -/
theorem C14_clock_shift_invariance (k ts v i : Nat) (s : LiChargerClass) :
    loopHandler ((ts + k) % 4294967296) v i (shiftClock k s) =
      (shiftClock k (loopHandler ts v i s).1, (loopHandler ts v i s).2) ∧
    ((loopHandler ((ts + k) % 4294967296) v i (shiftClock k s)).1.state =
        (loopHandler ts v i s).1.state ∧
      (loopHandler ((ts + k) % 4294967296) v i (shiftClock k s)).1.pwm =
        (loopHandler ts v i s).1.pwm ∧
      (loopHandler ((ts + k) % 4294967296) v i (shiftClock k s)).1.iMax =
        (loopHandler ts v i s).1.iMax ∧
      (loopHandler ((ts + k) % 4294967296) v i (shiftClock k s)).1.safeCharge =
        (loopHandler ts v i s).1.safeCharge ∧
      (loopHandler ((ts + k) % 4294967296) v i (shiftClock k s)).2 =
        (loopHandler ts v i s).2) ∧
    (∀ mark : Nat,
      sub32 ((ts + k) % 4294967296) ((mark + k) % 4294967296) = sub32 ts mark) := by
  refine ⟨loopHandler_shift k ts v i s, ?_, fun mark => sub32_shift ts mark k⟩
  rw [loopHandler_shift k ts v i s]
  exact ⟨rfl, rfl, rfl, rfl, rfl⟩

/-! ## Ramp-up with headroom on both axes -/

theorem charge_last_output (ts v i : Nat) (s : LiChargerClass) :
    ((charge ts v i s).2 = [] → (charge ts v i s).1.pwm = s.pwm) ∧
    (∀ x, (charge ts v i s).2.getLast? = some x → (charge ts v i s).1.pwm = x) := by
  rw [charge_pwm]
  by_cases ht : sub32 ts s.updateTs > UPDATE_DELAY
  · simp only [charge, regulation_tick ts v i s ht]
    refine ⟨fun h => absurd h (by simp), fun x hx => ?_⟩
    simpa using hx
  · simp only [charge, regulation_idle ts v i s ht]
    exact ⟨fun _ => trivial, fun x hx => by simp at hx⟩

theorem exec_last_output (c : Call) (s : LiChargerClass) :
    ((c.exec s).2 = [] → (c.exec s).1.pwm = s.pwm) ∧
    (∀ x, (c.exec s).2.getLast? = some x → (c.exec s).1.pwm = x) := by
  cases c with
  | initialise n k => exact ⟨fun _ => rfl, fun x hx => by simp [Call.exec, initialise] at hx⟩
  | start => exact ⟨fun _ => rfl, fun x hx => by simp [Call.exec, start] at hx⟩
  | stop =>
    refine ⟨fun h => by simp [Call.exec, stop] at h, fun x hx => ?_⟩
    simp only [Call.exec, stop, List.getLast?_singleton, Option.some.injEq] at hx ⊢
    exact hx
  | loopHandler ts v i =>
    simp only [Call.exec]
    cases ha : s.active with
    | false =>
      rw [loopHandler_inactive ts v i s ha]
      exact ⟨fun _ => rfl, fun x hx => by simp at hx⟩
    | true =>
      cases hs : s.state with
      | LI_CHARGER_STATE_STANDBY_E =>
        rw [loopHandler_standbyEntry ts v i s ha hs]
        refine ⟨fun h => by simp at h, fun x hx => ?_⟩
        simp only [List.getLast?_singleton, Option.some.injEq] at hx
        rw [standby_pwm, ← hx]; rfl
      | LI_CHARGER_STATE_STANDBY =>
        rw [loopHandler_standby ts v i s ha hs]
        exact ⟨fun _ => standby_pwm ts v s, fun x hx => by simp at hx⟩
      | LI_CHARGER_STATE_CHARGE_E =>
        rw [loopHandler_chargeEntry ts v i s ha hs]
        exact charge_last_output ts v i (chargeEntry ts s)
      | LI_CHARGER_STATE_CHARGE =>
        rw [loopHandler_charge ts v i s ha hs]
        exact charge_last_output ts v i s

theorem runCalls_last_output (cs : List Call) :
    ∀ s : LiChargerClass,
      ((runCalls cs s).2 = [] → (runCalls cs s).1.pwm = s.pwm) ∧
      (∀ x, (runCalls cs s).2.getLast? = some x → (runCalls cs s).1.pwm = x) := by
  induction cs with
  | nil => intro s; exact ⟨fun _ => rfl, fun x hx => by simp [runCalls] at hx⟩
  | cons c cs ih =>
    intro s
    obtain ⟨h1, h2⟩ := exec_last_output c s
    obtain ⟨h3, h4⟩ := ih (c.exec s).1
    simp only [runCalls]
    refine ⟨fun h => ?_, fun x hx => ?_⟩
    · rw [List.append_eq_nil] at h
      rw [h3 h.2, h1 h.1]
    · rw [List.getLast?_append] at hx
      cases hq : (runCalls cs (c.exec s).1).2.getLast? with
      | some y =>
        rw [hq] at hx
        simp only [Option.or_some, Option.some.injEq] at hx
        rw [← hx]; exact h4 y hq
      | none =>
        rw [hq] at hx
        simp only [Option.none_or] at hx
        rw [h3 (List.getLast?_eq_none_iff.mp hq)]
        exact h2 x hx

/-- C16: `pwm` is always the last commanded output.  For every call
(`initialize`, `start`, `stop`, `loopHandler` in any state, active or not): if
the call hands values to the callback, the last of them equals `pwm` after the
call; if it hands none, `pwm` is unchanged.  Hence after any sequence of calls
from any object, if the callback was called at all, the value it received last
equals the stored `pwm`. -/
theorem C16_pwm_is_last_output (c : Call) (calls : List Call) (s : LiChargerClass) :
    ((c.exec s).2 = [] → (c.exec s).1.pwm = s.pwm) ∧
    (∀ x, (c.exec s).2.getLast? = some x → (c.exec s).1.pwm = x) ∧
    (∀ x, (runCalls calls s).2.getLast? = some x → (runCalls calls s).1.pwm = x) :=
  ⟨(exec_last_output c s).1, (exec_last_output c s).2, (runCalls_last_output calls s).2⟩

/-- C16 at a concrete poll: the over-limit regulation tick on
`chargingExample` hands 4 to the callback and stores 4. -/
theorem C16_pwm_is_last_output_witness :
    (Call.exec (Call.loopHandler 2103 4200000 0) chargingExample).2.getLast? = some 4 ∧
    (Call.exec (Call.loopHandler 2103 4200000 0) chargingExample).1.pwm = 4 :=
  ⟨by decide,
   (C16_pwm_is_last_output (Call.loopHandler 2103 4200000 0) [] chargingExample).2.1 4
     (by decide)⟩

/-! ## No overflow in the threshold expressions -/

/-- C17: for every cell count `n` in 0..255 and every nominal current `c` in
0..65535 mA with `c*100 ≥ I_WINDOW` (at least 150 mA), each threshold
expression of `loopHandler`, evaluated in unsigned 32-bit arithmetic, equals
its exact integer value: the per-cell thresholds `V_START_MIN*n`,
`V_START_MAX*n`, `V_MAX*n + V_WINDOW*n`, `V_MAX*n - V_WINDOW*n`, `V_SAFE*n`,
`V_SURGE*n`; the ceilings `c*1000` and `c*1000/10`; for `iMax` either of the
two ceilings, `iMax + I_WINDOW` and `iMax - I_WINDOW`; and `I_FULL*1000`.  The
two differences are compared as integers, so they are shown not to
underflow. -/
theorem C17_thresholds_exact (n c : Nat) (hn : n ≤ 255) (hc : c ≤ 65535)
    (hw : I_WINDOW ≤ c * 100) :
    (mul32 V_START_MIN n = V_START_MIN * n ∧ mul32 V_START_MAX n = V_START_MAX * n ∧
      add32 (mul32 V_MAX n) (mul32 V_WINDOW n) = V_MAX * n + V_WINDOW * n ∧
      ((sub32 (mul32 V_MAX n) (mul32 V_WINDOW n) : Nat) : Int) =
        (V_MAX : Int) * n - (V_WINDOW : Int) * n ∧
      mul32 V_SAFE n = V_SAFE * n ∧ mul32 V_SURGE n = V_SURGE * n) ∧
    (mul32 c 1000 = c * 1000 ∧
      mul32 c 1000 / I_SAFE_DIVIDER = c * 1000 / 10) ∧
    (∀ iMax : Nat, (iMax = mul32 c 1000 / I_SAFE_DIVIDER ∨ iMax = mul32 c 1000) →
      add32 iMax I_WINDOW = iMax + I_WINDOW ∧
      ((sub32 iMax I_WINDOW : Nat) : Int) = (iMax : Int) - (I_WINDOW : Int)) ∧
    mul32 I_FULL 1000 = I_FULL * 1000 := by
  simp only [mul32, add32, sub32, V_START_MIN, V_START_MAX, V_MAX, V_WINDOW, V_SAFE,
    V_SURGE, I_WINDOW, I_SAFE_DIVIDER, I_FULL] at *
  refine ⟨⟨?_, ?_, ?_, ?_, ?_, ?_⟩, ⟨?_, ?_⟩, ?_, ?_⟩
  · omega
  · omega
  · omega
  · omega
  · omega
  · omega
  · omega
  · omega
  · intro iMax h
    have hm : c * 1000 % 4294967296 = c * 1000 := by omega
    rw [hm] at h
    have hb : 15000 ≤ iMax ∧ iMax ≤ 65535000 := by
      rcases h with h | h <;> omega
    constructor <;> omega
  · decide

/-- C17 at a concrete configuration: 255 cells and 150 mA, the smallest
nominal current for which the ceiling difference does not wrap. -/
theorem C17_thresholds_exact_witness :
    ((255 : Nat) ≤ 255 ∧ (150 : Nat) ≤ 65535 ∧ I_WINDOW ≤ 150 * 100) ∧
    ((sub32 (mul32 150 1000 / I_SAFE_DIVIDER) I_WINDOW : Nat) : Int) =
      ((mul32 150 1000 / I_SAFE_DIVIDER : Nat) : Int) - (I_WINDOW : Int) :=
  ⟨by decide,
   ((C17_thresholds_exact 255 150 (by decide) (by decide) (by decide)).2.2.1
     (mul32 150 1000 / I_SAFE_DIVIDER) (Or.inl rfl)).2⟩

/-! ## The ChargeEntry poll -/

/-- A detector whose timer equals the poll time does nothing. -/
theorem fullDetect_fresh (ts i : Nat) (s : LiChargerClass) (h : s.fullTs = ts) :
    fullDetect ts i s = s := by
  have h0 : ¬ sub32 ts ts > FULL_DELAY := by rw [sub32_self]; exact Nat.not_lt_zero _
  cases s
  simp only at h
  subst h
  simp only [fullDetect]
  split_ifs <;> rfl

theorem errorDetect_fresh (ts v : Nat) (s : LiChargerClass) (h : s.errorTs = ts) :
    errorDetect ts v s = s := by
  have h0 : ¬ sub32 ts ts > ERROR_DELAY := by rw [sub32_self]; exact Nat.not_lt_zero _
  cases s
  simp only at h
  subst h
  simp only [errorDetect]
  split_ifs <;> rfl

/-- On the ChargeEntry poll only the safety limiter acts. -/
theorem charge_after_entry (ts v i : Nat) (s : LiChargerClass) :
    charge ts v i (chargeEntry ts s) = (safety v (chargeEntry ts s), []) := by
  have h0 : ¬ sub32 ts (chargeEntry ts s).updateTs > UPDATE_DELAY := by
    show ¬ sub32 ts ts > UPDATE_DELAY
    rw [sub32_self]; exact Nat.not_lt_zero _
  simp only [charge, regulation_idle ts v i (chargeEntry ts s) h0]
  rw [fullDetect_fresh ts i _ (by rw [safety_fullTs]; rfl),
    errorDetect_fresh ts v _ (by rw [safety_errorTs]; rfl)]

/-- C19: an active `loopHandler` call that starts in ChargeEntry ends in the
steady Charging state for every voltage, current and clock value.  The three
charge timers equal the clock value, the regulator does not run (`pwm`
unchanged, callback not called), neither detector test holds, and the
resulting state is the ChargeEntry assignment followed by the safety limiter
alone: it depends on the inputs only through the clock value and the test
`v > V_SAFE*nCells`, which clears `safeCharge` and raises `iMax` to
`iChrg*1000`; otherwise `safeCharge` is set and `iMax = iChrg*1000/10`. -/
theorem C19_charge_entry_poll (ts v i : Nat) (s : LiChargerClass)
    (hn : s.nCells ≤ 255) (hc : s.iChrg ≤ 65535) (ha : s.active = true)
    (hs : s.state = LI_CHARGER_STATE_CHARGE_E) :
    ((loopHandler ts v i s).1.state = LI_CHARGER_STATE_CHARGE ∧
      (loopHandler ts v i s).1.pwm = s.pwm ∧ (loopHandler ts v i s).2 = []) ∧
    ((loopHandler ts v i s).1.updateTs = ts ∧ (loopHandler ts v i s).1.fullTs = ts ∧
      (loopHandler ts v i s).1.errorTs = ts ∧
      ¬ sub32 ts (loopHandler ts v i s).1.fullTs > FULL_DELAY ∧
      ¬ sub32 ts (loopHandler ts v i s).1.errorTs > ERROR_DELAY) ∧
    (loopHandler ts v i s).1 =
      (if v > V_SAFE * s.nCells then
        { chargeEntry ts s with safeCharge := false, iMax := s.iChrg * 1000 }
      else chargeEntry ts s) ∧
    (v > V_SAFE * s.nCells →
      (loopHandler ts v i s).1.safeCharge = false ∧
      (loopHandler ts v i s).1.iMax = s.iChrg * 1000) ∧
    (v ≤ V_SAFE * s.nCells →
      (loopHandler ts v i s).1.safeCharge = true ∧
      (loopHandler ts v i s).1.iMax = s.iChrg * 1000 / I_SAFE_DIVIDER) := by
  rw [loopHandler_chargeEntry ts v i s ha hs, charge_after_entry]
  have hsafe : mul32 V_SAFE s.nCells = V_SAFE * s.nCells := by
    simp only [mul32, V_SAFE]; omega
  have hmul : mul32 s.iChrg 1000 = s.iChrg * 1000 := by
    simp only [mul32]; omega
  have hz : ¬ sub32 ts ts > FULL_DELAY ∧ ¬ sub32 ts ts > ERROR_DELAY := by
    rw [sub32_self]; exact ⟨Nat.not_lt_zero _, Nat.not_lt_zero _⟩
  have hval : safety v (chargeEntry ts s) =
      (if v > V_SAFE * s.nCells then
        { chargeEntry ts s with safeCharge := false, iMax := s.iChrg * 1000 }
      else chargeEntry ts s) := by
    simp only [safety, chargeEntry, hsafe, hmul, and_true]
  refine ⟨⟨by rw [safety_state]; rfl, by rw [safety_pwm]; rfl, rfl⟩,
    ⟨by rw [safety_updateTs]; rfl, by rw [safety_fullTs]; rfl, by rw [safety_errorTs]; rfl,
      ?_, ?_⟩, hval, fun hv => ?_, fun hv => ?_⟩
  · rw [safety_fullTs]; exact hz.1
  · rw [safety_errorTs]; exact hz.2
  · rw [hval, if_pos hv]; exact ⟨rfl, rfl⟩
  · rw [hval, if_neg (by omega)]
    simp only [chargeEntry, hmul]
    exact ⟨trivial, trivial⟩

/-- C19 at a concrete poll: ChargeEntry at 3.0 V on one cell leaves safety
mode at once. -/
theorem C19_charge_entry_poll_witness :
    ((runCalls [Call.initialise 1 100, Call.start, Call.loopHandler 0 3000000 0,
        Call.loopHandler 2001 3000000 0] powerOn).1.nCells ≤ 255 ∧
      (runCalls [Call.initialise 1 100, Call.start, Call.loopHandler 0 3000000 0,
        Call.loopHandler 2001 3000000 0] powerOn).1.iChrg ≤ 65535 ∧
      (runCalls [Call.initialise 1 100, Call.start, Call.loopHandler 0 3000000 0,
        Call.loopHandler 2001 3000000 0] powerOn).1.active = true ∧
      (runCalls [Call.initialise 1 100, Call.start, Call.loopHandler 0 3000000 0,
        Call.loopHandler 2001 3000000 0] powerOn).1.state = LI_CHARGER_STATE_CHARGE_E) ∧
    (loopHandler 2002 3000000 0
      (runCalls [Call.initialise 1 100, Call.start, Call.loopHandler 0 3000000 0,
        Call.loopHandler 2001 3000000 0] powerOn).1).1.state = LI_CHARGER_STATE_CHARGE :=
  ⟨by decide,
   (C19_charge_entry_poll 2002 3000000 0
     (runCalls [Call.initialise 1 100, Call.start, Call.loopHandler 0 3000000 0,
        Call.loopHandler 2001 3000000 0] powerOn).1
     (by decide) (by decide) (by decide) (by decide)).1.1⟩

/-! ## Zero duty cycle outside the charge phase -/

/-- The invariant "Standby or ChargeEntry implies `pwm = 0`" is kept by every
call. -/
theorem exec_standby_zero (c : Call) (s : LiChargerClass)
    (h : (s.state = LI_CHARGER_STATE_STANDBY ∨ s.state = LI_CHARGER_STATE_CHARGE_E) →
      s.pwm = 0) :
    ((c.exec s).1.state = LI_CHARGER_STATE_STANDBY ∨
        (c.exec s).1.state = LI_CHARGER_STATE_CHARGE_E) → (c.exec s).1.pwm = 0 := by
  cases c with
  | initialise n k => intro hq; simp [Call.exec, initialise] at hq
  | start => exact h
  | stop => intro hq; simp [Call.exec, stop] at hq
  | loopHandler ts v i =>
    simp only [Call.exec]
    cases ha : s.active with
    | false => rw [loopHandler_inactive ts v i s ha]; exact h
    | true =>
      cases hs : s.state with
      | LI_CHARGER_STATE_STANDBY_E =>
        rw [loopHandler_standbyEntry ts v i s ha hs]
        intro _; rw [standby_pwm]; rfl
      | LI_CHARGER_STATE_STANDBY =>
        rw [loopHandler_standby ts v i s ha hs]
        intro _; rw [standby_pwm]; exact h (Or.inl hs)
      | LI_CHARGER_STATE_CHARGE_E =>
        rw [loopHandler_chargeEntry ts v i s ha hs]
        intro hq
        rcases (charge_state_cases ts v i (chargeEntry ts s) rfl).2 with h2 | h2 <;>
          rw [h2] at hq <;> simp at hq
      | LI_CHARGER_STATE_CHARGE =>
        rw [loopHandler_charge ts v i s ha hs]
        intro hq
        rcases (charge_state_cases ts v i s hs).2 with h2 | h2 <;>
          rw [h2] at hq <;> simp at hq

theorem runCalls_standby_zero (cs : List Call) :
    ∀ s : LiChargerClass,
      ((s.state = LI_CHARGER_STATE_STANDBY ∨ s.state = LI_CHARGER_STATE_CHARGE_E) →
        s.pwm = 0) →
      ((runCalls cs s).1.state = LI_CHARGER_STATE_STANDBY ∨
          (runCalls cs s).1.state = LI_CHARGER_STATE_CHARGE_E) →
        (runCalls cs s).1.pwm = 0 := by
  induction cs with
  | nil => intro s h; exact h
  | cons c cs ih =>
    intro s h
    simp only [runCalls]
    exact ih _ (exec_standby_zero c s h)

/-- C18: in every state reached from `initialize` (any prior object and
arguments) by any sequence of calls, Standby or ChargeEntry implies `pwm = 0`;
and from such a state in ChargeEntry the next `loopHandler` call leaves
`pwm = 0` and, when active, enters Charging without calling the callback: the
charge cycle starts regulating from 0. -/
theorem C18_standby_pwm_zero (s0 : LiChargerClass) (nCells iChrg : Nat)
    (calls : List Call) (ts v i : Nat) :
    (((runCalls (Call.initialise nCells iChrg :: calls) s0).1.state =
          LI_CHARGER_STATE_STANDBY ∨
        (runCalls (Call.initialise nCells iChrg :: calls) s0).1.state =
          LI_CHARGER_STATE_CHARGE_E) →
      (runCalls (Call.initialise nCells iChrg :: calls) s0).1.pwm = 0) ∧
    ((runCalls (Call.initialise nCells iChrg :: calls) s0).1.state =
        LI_CHARGER_STATE_CHARGE_E →
      (loopHandler ts v i (runCalls (Call.initialise nCells iChrg :: calls) s0).1).1.pwm = 0 ∧
      ((runCalls (Call.initialise nCells iChrg :: calls) s0).1.active = true →
        (loopHandler ts v i
          (runCalls (Call.initialise nCells iChrg :: calls) s0).1).1.state =
            LI_CHARGER_STATE_CHARGE ∧
        (loopHandler ts v i
          (runCalls (Call.initialise nCells iChrg :: calls) s0).1).2 = [])) := by
  have hinv := runCalls_standby_zero calls (Call.exec (Call.initialise nCells iChrg) s0).1
    (fun hq => by simp [Call.exec, initialise] at hq)
  have hrun : runCalls (Call.initialise nCells iChrg :: calls) s0 =
      (runCalls calls (Call.exec (Call.initialise nCells iChrg) s0).1 ) := by
    simp [runCalls, Call.exec, initialise]
  rw [hrun]
  refine ⟨hinv, fun hs => ?_⟩
  have hz := hinv (Or.inr hs)
  refine ⟨?_, fun ha => ?_⟩
  · cases ha : (runCalls calls (Call.exec (Call.initialise nCells iChrg) s0).1).1.active with
    | false => rw [loopHandler_inactive ts v i _ ha]; exact hz
    | true =>
      rw [loopHandler_chargeEntry ts v i _ ha hs, charge_after_entry, safety_pwm]
      exact hz
  · rw [loopHandler_chargeEntry ts v i _ ha hs, charge_after_entry, safety_state]
    exact ⟨rfl, rfl⟩

/-- C18 at a concrete run: a 100 mA charger whose start debounce has just
expired is in ChargeEntry with `pwm = 0`. -/
theorem C18_standby_pwm_zero_witness :
    (runCalls (Call.initialise 1 100 ::
        [Call.start, Call.loopHandler 0 3000000 0, Call.loopHandler 2001 3000000 0])
      powerOn).1.state = LI_CHARGER_STATE_CHARGE_E ∧
    (runCalls (Call.initialise 1 100 ::
        [Call.start, Call.loopHandler 0 3000000 0, Call.loopHandler 2001 3000000 0])
      powerOn).1.pwm = 0 :=
  ⟨by decide,
   (C18_standby_pwm_zero powerOn 1 100
     [Call.start, Call.loopHandler 0 3000000 0, Call.loopHandler 2001 3000000 0]
     0 0 0).1 (Or.inr (by decide))⟩

/-! ## The poll on which a detector fires -/

/-- C20: on an active Charging poll the detectors do not touch the output:
`pwm` and the callback calls are exactly those of the paced regulation block,
also when a detector test holds and the state becomes StandbyEntry.  After
`surgeRun` the controller is in a reachable Charging state with `pwm = 3`;
the poll at 2457 ms with 4.3 V fires the error detector and leaves state
StandbyEntry with `pwm = 2 > 0`, the callback having been called with 2 only.
From a StandbyEntry state `q`, a call changes `pwm` only if it is `stop` or an
active `loopHandler` call, and both of these set `pwm = 0`. -/
theorem C20_detector_keeps_output (ts v i : Nat) (s q : LiChargerClass) (c : Call)
    (ha : s.active = true) (hs : s.state = LI_CHARGER_STATE_CHARGE) :
    ((loopHandler ts v i s).1.pwm = (regulation ts v i s).1.pwm ∧
      (loopHandler ts v i s).2 = (regulation ts v i s).2 ∧
      ((loopHandler ts v i s).2 = [] ∨
        (loopHandler ts v i s).2 = [(loopHandler ts v i s).1.pwm])) ∧
    ((sub32 ts (loopHandler ts v i s).1.errorTs > ERROR_DELAY ∨
        sub32 ts (loopHandler ts v i s).1.fullTs > FULL_DELAY) →
      (loopHandler ts v i s).1.state = LI_CHARGER_STATE_STANDBY_E) ∧
    ((runCalls surgeRun powerOn).1.state = LI_CHARGER_STATE_CHARGE ∧
      (runCalls surgeRun powerOn).1.active = true ∧
      (runCalls surgeRun powerOn).1.pwm = 3 ∧
      (loopHandler 2457 4300000 0 (runCalls surgeRun powerOn).1).1.state =
        LI_CHARGER_STATE_STANDBY_E ∧
      (loopHandler 2457 4300000 0 (runCalls surgeRun powerOn).1).1.pwm = 2 ∧
      0 < (loopHandler 2457 4300000 0 (runCalls surgeRun powerOn).1).1.pwm ∧
      (loopHandler 2457 4300000 0 (runCalls surgeRun powerOn).1).2 = [2]) ∧
    (q.state = LI_CHARGER_STATE_STANDBY_E →
      ((c.exec q).1.pwm ≠ q.pwm →
        c = Call.stop ∨ ∃ t u j, c = Call.loopHandler t u j ∧ q.active = true) ∧
      (stop q).1.pwm = 0 ∧
      (q.active = true → ∀ t u j, (loopHandler t u j q).1.pwm = 0 ∧
        (loopHandler t u j q).2 = [0])) := by
  refine ⟨?_, ?_, by decide, fun hq => ⟨fun hne => ?_, rfl, fun hact t u j => ?_⟩⟩
  · rw [loopHandler_charge ts v i s ha hs, charge_pwm]
    refine ⟨rfl, rfl, ?_⟩
    by_cases ht : sub32 ts s.updateTs > UPDATE_DELAY
    · right; simp only [charge, regulation_tick ts v i s ht]
    · left; simp only [charge, regulation_idle ts v i s ht]
  · rw [loopHandler_charge ts v i s ha hs]
    exact (charge_state_cases ts v i s hs).1.mpr
  · cases c with
    | initialise n k => exact absurd rfl hne
    | start => exact absurd rfl hne
    | stop => exact Or.inl rfl
    | loopHandler t u j =>
      cases hact : q.active with
      | false =>
        simp only [Call.exec, loopHandler_inactive t u j q hact] at hne
        exact absurd rfl hne
      | true => exact Or.inr ⟨t, u, j, rfl, rfl⟩
  · obtain ⟨h1, h2, _, _⟩ := loopHandler_after_standbyEntry t u j q hact hq
    exact ⟨h1, h2⟩

/-- C20 at the concrete firing poll: a detector test holds, so the state is
StandbyEntry, while the callback got the regulator's value. -/
theorem C20_detector_keeps_output_witness :
    ((runCalls surgeRun powerOn).1.active = true ∧
      (runCalls surgeRun powerOn).1.state = LI_CHARGER_STATE_CHARGE ∧
      sub32 2457 (loopHandler 2457 4300000 0 (runCalls surgeRun powerOn).1).1.errorTs
        > ERROR_DELAY) ∧
    (loopHandler 2457 4300000 0 (runCalls surgeRun powerOn).1).1.state =
      LI_CHARGER_STATE_STANDBY_E :=
  ⟨by decide,
   (C20_detector_keeps_output 2457 4300000 0 (runCalls surgeRun powerOn).1 powerOn
     Call.start (by decide) (by decide)).2.1 (Or.inl (by decide))⟩

end LiCharger
